import Mathlib

/-!
# Verification of the msi-ec fan-control engine

A shallow embedding, in Lean 4, of the fan-control core of the `msi-ec`
Linux driver (`src/msi-ec.c` and its header): the curve text codec
(`read_curve` / `print_curve`), the curve sync engine
(`sync_ec_curve`, `push_ec_curve` and their `_safe` wrappers), the
apply-strategy transition (`curve_fan_mode_change`), the profile
resolver (`load_configuration`), the hwmon PWM-enable state machine
(`msi_ec_hwmon_write` / `msi_ec_hwmon_read`) and the per-point store
(`curve_attr_store`).

Conventions of the embedding:
* C byte buffers (`u8[CURVE_MAX_ENTRIES]`) are modelled as functions
  `Nat → Nat`; every value ever written into them by the modelled code
  is a byte.
* The EC is modelled as a memory `Nat → Nat` together with per-address
  read/write availability predicates; a denied access models a bus
  (I/O) failure of `ec_read` / `ec_write`.
* C functions return their `int`/`ssize_t` status verbatim: `0` for
  success, negative `errno` constants for failure (a sysfs store that
  returns its byte count on success is modelled as returning `0`).
* Machine arithmetic is `Nat`/`Int` with explicit `% 2 ^ 32` (kernel
  `sscanf` stores `%u` results through an `unsigned int` that the
  driver then reads back as a signed `int`) and `% 256` for `u8` casts.
-/

namespace MsiEc

/-! ## Error codes (negated errno values as returned by the C code) -/

def EIO : Int := -5
def EINVAL : Int := -22
def ENODATA : Int := -61
def EOPNOTSUPP : Int := -95

/-- `MSI_EC_ADDR_UNSUPP` / `MSI_EC_ADDR_UNKNOWN` sentinel (0xff01). -/
def ADDR_UNSUPP : Nat := 0xff01

/-! ## Character classes used by the kernel `vsscanf` implementation -/

/-- Kernel `isspace`: space, `\t`, `\n`, `\v`, `\f`, `\r`. -/
def isSpaceC (c : Char) : Bool :=
  c.toNat = 32 ∨ (9 ≤ c.toNat ∧ c.toNat ≤ 13)

/-- `isdigit`. -/
def isDigitC (c : Char) : Bool :=
  48 ≤ c.toNat ∧ c.toNat ≤ 57

/-- Numeric value of a decimal digit character. -/
def digitVal (c : Char) : Nat := c.toNat - 48

/-- Value of a decimal digit string (as accumulated by
`simple_strtoull`, without the `u64` wrap, which is applied by the
consumer as an explicit `% 2 ^ 32`: `x % 2 ^ 64 % 2 ^ 32 = x % 2 ^ 32`). -/
def digitsVal (ds : List Char) : Nat :=
  ds.foldl (fun a c => 10 * a + digitVal c) 0

/-- The signed 32-bit reinterpretation of `v % 2 ^ 32`: the driver
declares `int data[...]` but lets `%u` store through `unsigned int *`,
then compares `data[i] >= 256` as a signed `int`. -/
def toInt32 (v : Nat) : Int :=
  if v % 2 ^ 32 < 2 ^ 31 then ((v % 2 ^ 32 : Nat) : Int)
  else ((v % 2 ^ 32 : Nat) : Int) - 2 ^ 32

/-! ## The curve text parser: `read_curve` (msi-ec.c:4150-4194)

`read_curve` repeatedly invokes `sscanf(sdata, "%u%n", &data[i],
&offset)`.  Kernel `vsscanf` `%u` skips leading whitespace, requires a
decimal digit (no sign), consumes the maximal digit run and reports the
consumed length through `%n`. -/

/-- One `sscanf("%u%n")` step: skip whitespace, read a maximal digit
run.  Returns the (unwrapped) value and the rest of the input, or
`none` when no digit is found (`sscanf` result `!= 1`). -/
def parseU (cs : List Char) : Option (Nat × List Char) :=
  let cs1 := cs.dropWhile isSpaceC
  let ds := cs1.takeWhile isDigitC
  if ds.isEmpty then none
  else some (digitsVal ds, cs1.drop ds.length)

/-- The scan loop of `read_curve`: `sz` integers, each bounded by the
(signed) comparison `data[i] >= 256`.  The stored values are the
`unsigned int` images `v % 2 ^ 32`.  The `cs.isEmpty` guard is the
`sdata >= buf + count` check at the top of each iteration. -/
def scanInts : Nat → List Char → Option (List Nat × List Char)
  | 0, cs => some ([], cs)
  | n + 1, cs =>
    if cs.isEmpty then none
    else
      match parseU cs with
      | none => none
      | some (v, rest) =>
        if 256 ≤ toInt32 v then none
        else
          match scanInts n rest with
          | none => none
          | some (vs, r) => some (v % 2 ^ 32 :: vs, r)

/-- Elements at even positions (`j % 2 == 0` → `temp_speed_buf`). -/
def evens : List α → List α
  | [] => []
  | [a] => [a]
  | a :: _ :: t => a :: evens t

/-- Elements at odd positions (`temp_temperature_buf`). -/
def odds : List α → List α
  | [] => []
  | [_] => []
  | _ :: b :: t => b :: odds t

/-- The temperature validation loop: starting from `late_temp = 0`,
each breakpoint must be strictly greater than the previous one (hence
the first strictly positive) and at most 100. -/
def tempsOK : Nat → List Nat → Bool
  | _, [] => true
  | late, t :: ts => if late < t ∧ t ≤ 100 then tempsOK t ts else false

/-- The speed validation loop: every speed at most 150. -/
def speedsOK (sp : List Nat) : Bool := sp.all (· ≤ 150)

/-! `read_curve(fan_speed_buf, temperature_buf, entries, buf, count)`:
parses `2 * entries - 1` integers, checks the terminator (`'\n'`
optional, then end of input), validates, and only then yields the
decoded speed bytes (length `entries`) and temperature bytes (length
`entries - 1`).  `none` is the C function's `-EINVAL`.

(The final C copy loop also stores one indeterminate stack byte into
`temperature_buf[entries - 1]`, one past the last breakpoint; no
logical curve cell depends on it and it is not modelled.) -/

/-- The optional-trailing-newline step:
`if (sdata < buf + count && *sdata == '\n') sdata++`. -/
def stripNl (rest : List Char) : List Char :=
  match rest with
  | '\n' :: r => r
  | r => r

/-- The body of `read_curve`; see the comment block above. -/
def readCurve (entries : Nat) (input : List Char) : Option (List Nat × List Nat) :=
  match scanInts (2 * entries - 1) input with
  | none => none
  | some (data, rest) =>
    if (stripNl rest).isEmpty then
      if tempsOK 0 ((odds data).map (· % 256)) ∧ speedsOK ((evens data).map (· % 256)) then
        some ((evens data).map (· % 256), (odds data).map (· % 256))
      else none
    else none

/-! ## The curve text printer: `print_curve` (msi-ec.c:4133-4148) -/

/-- Decimal digit character. -/
def digitChar (d : Nat) : Char := Char.ofNat (48 + d)

/-- Decimal representation, fuel-driven so that it evaluates by kernel
reduction (`fuel > n` always suffices). -/
def repCAux : Nat → Nat → List Char
  | 0, _ => []
  | fuel + 1, n =>
    if n < 10 then [digitChar n]
    else repCAux fuel (n / 10) ++ [digitChar (n % 10)]

/-- Decimal representation, as printed by `sprintf("%d", v)` for the
byte values the driver prints. -/
def repC (n : Nat) : List Char := repCAux (n + 1) n

/-- Space-separated rendering of a value list (the `str` buffer built
by `print_curve` after the trailing space is replaced by `'\0'`). -/
def encodeVals : List Nat → List Char
  | [] => []
  | [v] => repC v
  | v :: rest => repC v ++ ' ' :: encodeVals rest

/-- The interleaving `s0 t1 s1 t2 s2 …` printed by `print_curve`
(`j` even → next speed, `j` odd → next temperature). -/
def interleaveL : List Nat → List Nat → List Nat
  | [], _ => []
  | [s], _ => [s]
  | s :: ss, [] => s :: interleaveL ss []
  | s :: ss, t :: ts => s :: t :: interleaveL ss ts

/-- `print_curve`'s text for explicit speed/temperature lists: the
curve in wire format, without the final `'\n'` that `sysfs_emit`
appends. -/
def printCurveL (sp te : List Nat) : List Char :=
  encodeVals (interleaveL sp te)

/-! ## The specification grammar (from the spec's words)

Modelled from the spec: “Parsing requires exactly `2·N−1`
whitespace-separated unsigned integers, each < 256, followed by
nothing but an optional trailing newline.”  A decomposition witnesses
the input as optional leading whitespace, digit tokens separated by
nonempty whitespace runs, and an optional final newline; the token
predicate `P` is the per-integer value condition under scrutiny. -/

/-- A nonempty all-digit token. -/
def DigitTok (t : List Char) : Prop := t ≠ [] ∧ ∀ c ∈ t, isDigitC c = true

/-- Tokens interleaved with their separators:
`t₀ s₀ t₁ s₁ … t_{k-1}`. -/
def joinTS : List (List Char) → List (List Char) → List Char
  | [], _ => []
  | [t], _ => t
  | t :: ts, [] => t ++ joinTS ts []
  | t :: ts, s :: ss => t ++ s ++ joinTS ts ss

/-- The input decomposes as `lead ++ t₀ s₀ t₁ … t_{n-1} ++ tail` with
`n` digit tokens whose values satisfy `P`, nonempty whitespace
separators, all-whitespace `lead` and `tail ∈ {"", "\n"}`. -/
def TokDecomp (P : Nat → Prop) (n : Nat) (input : List Char)
    (toks : List (List Char)) : Prop :=
  ∃ lead seps tail,
    toks.length = n ∧
    seps.length + 1 = n ∧
    (∀ c ∈ lead, isSpaceC c = true) ∧
    (∀ t ∈ toks, DigitTok t ∧ P (digitsVal t)) ∧
    (∀ s ∈ seps, s ≠ [] ∧ ∀ c ∈ s, isSpaceC c = true) ∧
    (tail = [] ∨ tail = ['\n']) ∧
    input = lead ++ joinTS toks seps ++ tail

/-- The spec grammar: some decomposition exists. -/
def GrammarOK (P : Nat → Prop) (n : Nat) (input : List Char) : Prop :=
  ∃ toks, TokDecomp P n input toks

/-- The claim's original per-token condition: value less than 256. -/
def TokOrig (v : Nat) : Prop := v < 256

/-- The condition the code actually enforces: the signed 32-bit image
of the value is less than 256. -/
def TokCode (v : Nat) : Prop := toInt32 v < 256

/-! ### Character-class and list facts -/

theorem digit_not_space {c : Char} (h : isDigitC c = true) : isSpaceC c = false := by
  simp only [isDigitC, decide_eq_true_eq] at h
  simp only [isSpaceC, decide_eq_false_iff_not]
  omega

theorem space_not_digit {c : Char} (h : isSpaceC c = true) : isDigitC c = false := by
  simp only [isSpaceC, decide_eq_true_eq] at h
  simp only [isDigitC, decide_eq_false_iff_not]
  omega

/-- The head of `r`, if any, fails `p`. -/
def HeadNot (p : Char → Bool) : List Char → Prop
  | [] => True
  | c :: _ => p c = false

theorem headNot_dropWhile (p : Char → Bool) (l : List Char) :
    HeadNot p (l.dropWhile p) := by
  induction l with
  | nil => trivial
  | cons a l ih =>
    by_cases h : p a
    · simpa [List.dropWhile_cons_of_pos h] using ih
    · simpa [List.dropWhile_cons_of_neg h, HeadNot] using eq_false_of_ne_true h

theorem dropWhile_space_append {ws r : List Char}
    (h : ∀ c ∈ ws, isSpaceC c = true) (hr : HeadNot isSpaceC r) :
    (ws ++ r).dropWhile isSpaceC = r := by
  induction ws with
  | nil =>
    cases r with
    | nil => rfl
    | cons c cs =>
      have hc : isSpaceC c = false := hr
      simp [List.dropWhile_cons, hc]
  | cons w ws ih =>
    have hw : isSpaceC w = true := h w (by simp)
    simp only [List.cons_append, List.dropWhile_cons_of_pos hw]
    exact ih (fun c hc => h c (by simp [hc]))

theorem takeWhile_digit_append {t r : List Char}
    (ht : ∀ c ∈ t, isDigitC c = true) (hr : HeadNot isDigitC r) :
    (t ++ r).takeWhile isDigitC = t := by
  induction t with
  | nil =>
    cases r with
    | nil => rfl
    | cons c cs =>
      have hc : isDigitC c = false := hr
      simp [List.takeWhile_cons, hc]
  | cons a t ih =>
    have ha : isDigitC a = true := ht a (by simp)
    simp only [List.cons_append, List.takeWhile_cons_of_pos ha]
    exact congrArg (a :: ·) (ih (fun c hc => ht c (by simp [hc])))

/-- One `sscanf("%u%n")` step on a decomposed input. -/
theorem parseU_eq {ws t r : List Char}
    (hws : ∀ c ∈ ws, isSpaceC c = true) (ht : DigitTok t)
    (hr : HeadNot isDigitC r) :
    parseU (ws ++ t ++ r) = some (digitsVal t, r) := by
  obtain ⟨htne, htd⟩ := ht
  obtain ⟨c, t', rfl⟩ := List.exists_cons_of_ne_nil htne
  have hcd : isDigitC c = true := htd c (by simp)
  have h1 : (ws ++ (c :: t') ++ r).dropWhile isSpaceC = c :: t' ++ r := by
    rw [List.append_assoc]
    exact dropWhile_space_append hws (by simpa [HeadNot] using digit_not_space hcd)
  have h2 : ((c :: t') ++ r).takeWhile isDigitC = c :: t' :=
    takeWhile_digit_append htd hr
  simp only [parseU, h1]
  simp only [List.cons_append] at h2 ⊢
  rw [h2]
  simp [List.drop_left ((c : Char) :: t') r]


/-- One unfolding step of the scan loop on a successful `sscanf`. -/
theorem scanInts_succ_of_parse {n : Nat} {cs r1 : List Char} {v : Nat}
    (hcs : cs.isEmpty = false) (hp : parseU cs = some (v, r1)) (hv : toInt32 v < 256) :
    scanInts (n + 1) cs =
      match scanInts n r1 with
      | none => none
      | some (vs, r) => some (v % 2 ^ 32 :: vs, r) := by
  rw [scanInts, if_neg (by simp [hcs]), hp]
  simp [not_le.mpr hv]

/-- Inversion of one successful scan-loop step. -/
theorem scanInts_succ_inv {n : Nat} {cs : List Char} {vs : List Nat} {rest : List Char}
    (h : scanInts (n + 1) cs = some (vs, rest)) :
    ∃ v r1 vs', parseU cs = some (v, r1) ∧ toInt32 v < 256 ∧
      scanInts n r1 = some (vs', rest) ∧ vs = v % 2 ^ 32 :: vs' := by
  rw [scanInts] at h
  by_cases hne : cs.isEmpty
  · simp [hne] at h
  · rw [if_neg (by simp [hne])] at h
    rcases hp : parseU cs with _ | ⟨v, r1⟩
    · simp [hp] at h
    · rw [hp] at h
      by_cases hb : 256 ≤ toInt32 v
      · simp [hb] at h
      · simp only [hb, if_false] at h
        rcases hs : scanInts n r1 with _ | ⟨vs', rest'⟩
        · simp [hs] at h
        · simp only [hs, Option.some.injEq, Prod.mk.injEq] at h
          exact ⟨v, r1, vs', rfl, not_le.mp hb, by rw [hs, h.2], h.1.symm⟩

/-- The converse of `parseU_eq`: how a successful `sscanf("%u%n")`
step decomposes its input. -/
theorem parseU_sound {cs : List Char} {v : Nat} {r : List Char}
    (h : parseU cs = some (v, r)) :
    ∃ lead ds, (∀ c ∈ lead, isSpaceC c = true) ∧ DigitTok ds ∧ v = digitsVal ds ∧
      cs = lead ++ ds ++ r ∧ HeadNot isDigitC r := by
  simp only [parseU] at h
  set cs1 := cs.dropWhile isSpaceC with hcs1
  set ds := cs1.takeWhile isDigitC with hds
  by_cases hde : ds.isEmpty
  · simp [hde] at h
  · simp only [hde, Bool.false_eq_true, if_false, Option.some.injEq, Prod.mk.injEq] at h
    obtain ⟨hv, hr⟩ := h
    have h1 : cs = cs.takeWhile isSpaceC ++ cs1 :=
      (List.takeWhile_append_dropWhile isSpaceC cs).symm
    have h2 : cs1 = ds ++ cs1.dropWhile isDigitC :=
      (List.takeWhile_append_dropWhile isDigitC cs1).symm
    have h3 : r = cs1.dropWhile isDigitC := by
      rw [← hr]
      conv_lhs => rw [h2]
      exact List.drop_left ds (cs1.dropWhile isDigitC)
    refine ⟨cs.takeWhile isSpaceC, ds,
      fun c hc => List.mem_takeWhile_imp hc,
      ⟨by simpa [List.isEmpty_iff] using hde, fun c hc => List.mem_takeWhile_imp hc⟩,
      hv.symm, ?_, ?_⟩
    · conv_lhs => rw [h1, h2, ← h3]
      simp
    · rw [h3]; exact headNot_dropWhile isDigitC cs1

/-! ### Completeness: a grammar decomposition is accepted by the scan loop -/

theorem scanInts_build :
    ∀ (toks seps : List (List Char)) (lead rest : List Char),
      seps.length + 1 = toks.length →
      (∀ c ∈ lead, isSpaceC c = true) →
      (∀ t ∈ toks, DigitTok t ∧ TokCode (digitsVal t)) →
      (∀ s ∈ seps, s ≠ [] ∧ ∀ c ∈ s, isSpaceC c = true) →
      HeadNot isDigitC rest →
      scanInts toks.length (lead ++ joinTS toks seps ++ rest) =
        some (toks.map (fun t => digitsVal t % 2 ^ 32), rest)
  | [], _, _, _, hlen, _, _, _, _ => by simp at hlen
  | [t], seps, lead, rest, _, hlead, htoks, _, hrest => by
    obtain ⟨htne, _⟩ := (htoks t (by simp)).1
    have hcode : toInt32 (digitsVal t) < 256 := (htoks t (by simp)).2
    have hne : (lead ++ joinTS [t] seps ++ rest).isEmpty = false := by
      simp [joinTS, List.isEmpty_iff, htne]
    have hparse : parseU (lead ++ joinTS [t] seps ++ rest) = some (digitsVal t, rest) := by
      rw [show joinTS [t] seps = t by cases seps <;> rfl]
      exact parseU_eq hlead (htoks t (by simp)).1 hrest
    rw [show ([t] : List (List Char)).length = 0 + 1 from rfl,
      scanInts_succ_of_parse hne hparse hcode]
    simp [scanInts]
  | t :: t' :: toks', s :: seps', lead, rest, hlen, hlead, htoks, hseps, hrest => by
    obtain ⟨hsne, hsp⟩ := hseps s (by simp)
    obtain ⟨htne, _⟩ := (htoks t (by simp)).1
    have hcode : toInt32 (digitsVal t) < 256 := (htoks t (by simp)).2
    have hjoin : joinTS (t :: t' :: toks') (s :: seps') =
        t ++ s ++ joinTS (t' :: toks') seps' := rfl
    have hne : (lead ++ joinTS (t :: t' :: toks') (s :: seps') ++ rest).isEmpty = false := by
      simp [hjoin, List.isEmpty_iff, htne]
    have hsdigit : HeadNot isDigitC (s ++ (joinTS (t' :: toks') seps' ++ rest)) := by
      obtain ⟨c, s', rfl⟩ := List.exists_cons_of_ne_nil hsne
      have : isSpaceC c = true := hsp c (by simp)
      simpa [HeadNot] using space_not_digit this
    have hparse : parseU (lead ++ joinTS (t :: t' :: toks') (s :: seps') ++ rest) =
        some (digitsVal t, s ++ (joinTS (t' :: toks') seps' ++ rest)) := by
      rw [← parseU_eq hlead (htoks t (by simp)).1 hsdigit]
      congr 1
      simp [hjoin]
    have hih := scanInts_build (t' :: toks') seps' s rest
      (by simpa using hlen) hsp
      (fun u hu => htoks u (by simp at hu ⊢; tauto))
      (fun u hu => hseps u (by simp [hu]))
      hrest
    rw [show ((t :: t' :: toks') : List (List Char)).length = (t' :: toks').length + 1 from rfl,
      scanInts_succ_of_parse hne hparse hcode]
    rw [show s ++ (joinTS (t' :: toks') seps' ++ rest) =
      s ++ joinTS (t' :: toks') seps' ++ rest by simp, hih]
    simp

/-! ### Soundness: what the scan loop accepts decomposes per the grammar -/

theorem scanInts_sound :
    ∀ (n : Nat) (cs : List Char) (vs : List Nat) (rest : List Char),
      scanInts (n + 1) cs = some (vs, rest) →
      ∃ lead toks seps,
        toks.length = n + 1 ∧
        seps.length + 1 = n + 1 ∧
        (∀ c ∈ lead, isSpaceC c = true) ∧
        (∀ t ∈ toks, DigitTok t ∧ TokCode (digitsVal t)) ∧
        (∀ s ∈ seps, s ≠ [] ∧ ∀ c ∈ s, isSpaceC c = true) ∧
        cs = lead ++ joinTS toks seps ++ rest ∧
        vs = toks.map (fun t => digitsVal t % 2 ^ 32) ∧
        HeadNot isDigitC rest := by
  intro n
  induction n with
  | zero =>
    intro cs vs rest h
    obtain ⟨v, r1, vs', hp, hb, hs, hvs⟩ := scanInts_succ_inv h
    obtain ⟨hvs', hr1⟩ : vs' = [] ∧ r1 = rest := by
      rw [scanInts, Option.some.injEq, Prod.mk.injEq] at hs
      exact ⟨hs.1.symm, hs.2⟩
    obtain ⟨lead, ds, hlead, hdt, hv, hcs, hhn⟩ := parseU_sound hp
    refine ⟨lead, [ds], [], by simp, by simp, hlead, ?_, by simp, ?_, ?_, ?_⟩
    · intro u hu
      simp only [List.mem_singleton] at hu
      subst hu
      exact ⟨hdt, by rw [TokCode, ← hv]; exact hb⟩
    · rw [joinTS, ← hr1, ← hcs]
    · simp [hvs, hvs', hv]
    · rw [← hr1]; exact hhn
  | succ m ih =>
    intro cs vs rest h
    obtain ⟨v, r1, vs', hp, hb, hs, hvs⟩ := scanInts_succ_inv h
    obtain ⟨lead, ds, hlead, hdt, hv, hcs, hhn1⟩ := parseU_sound hp
    obtain ⟨lead', toks', seps', hl1, hl2, hlead', htoks', hseps', hr1, hvs', hhn⟩ :=
      ih r1 vs' rest hs
    obtain ⟨t1, toks'', rfl⟩ : ∃ t1 toks'', toks' = t1 :: toks'' := by
      cases toks' with
      | nil => simp at hl1
      | cons a b => exact ⟨a, b, rfl⟩
    obtain ⟨d, t1', rfl⟩ := List.exists_cons_of_ne_nil (htoks' t1 (by simp)).1.1
    have hdd : isDigitC d = true := (htoks' (d :: t1') (by simp)).1.2 d (by simp)
    obtain ⟨e, lead'', rfl⟩ : ∃ e lead'', lead' = e :: lead'' := by
      cases lead' with
      | nil =>
        exfalso
        have hz : ∃ z, joinTS ((d :: t1') :: toks'') seps' = (d :: t1') ++ z := by
          cases toks'' with
          | nil => exact ⟨[], by simp [joinTS]⟩
          | cons a b =>
            cases seps' with
            | nil => exact ⟨joinTS (a :: b) [], by simp [joinTS]⟩
            | cons u w => exact ⟨u ++ joinTS (a :: b) w, by simp [joinTS]⟩
        obtain ⟨z, hz⟩ := hz
        rw [hz] at hr1
        simp only [List.nil_append, List.cons_append] at hr1
        rw [hr1] at hhn1
        simp [HeadNot, hdd] at hhn1
      | cons a b => exact ⟨a, b, rfl⟩
    refine ⟨lead, ds :: (d :: t1') :: toks'', (e :: lead'') :: seps',
      by simpa using hl1, by simpa using hl2, hlead, ?_, ?_, ?_, ?_, ?_⟩
    · intro u hu
      rcases List.mem_cons.mp hu with rfl | hu'
      · exact ⟨hdt, by rw [TokCode, ← hv]; exact hb⟩
      · exact htoks' u hu'
    · intro u hu
      rcases List.mem_cons.mp hu with rfl | hu'
      · exact ⟨by simp, hlead'⟩
      · exact hseps' u hu'
    · have hjoin : joinTS (ds :: (d :: t1') :: toks'') ((e :: lead'') :: seps') =
          ds ++ (e :: lead'') ++ joinTS ((d :: t1') :: toks'') seps' := rfl
      rw [hjoin, hcs, hr1]
      simp
    · simp [hvs, hvs', hv]
    · exact hhn

/-! ### `read_curve` as a whole: soundness and completeness -/

theorem stripNl_empty_iff (rest : List Char) :
    (stripNl rest).isEmpty = true ↔ rest = [] ∨ rest = ['\n'] := by
  rcases rest with _ | ⟨c, rs⟩
  · simp [stripNl]
  · by_cases hc : c = '\n'
    · subst hc
      show rs.isEmpty = true ↔ _
      simp [List.isEmpty_iff]
    · have hs : stripNl (c :: rs) = c :: rs := by
        unfold stripNl
        split
        · rename_i heq
          rw [List.cons.injEq] at heq
          exact absurd heq.1 hc
        · rfl
      rw [hs]
      simp [hc]

/-- The `data[]` values of a token list (`%u` stored through
`unsigned int`). -/
def tokVals (toks : List (List Char)) : List Nat :=
  toks.map (fun t => digitsVal t % 2 ^ 32)

/-- The speed bytes `(u8)data[j]`, `j` even. -/
def decSpeeds (toks : List (List Char)) : List Nat :=
  (evens (tokVals toks)).map (· % 256)

/-- The temperature bytes `(u8)data[j]`, `j` odd. -/
def decTemps (toks : List (List Char)) : List Nat :=
  (odds (tokVals toks)).map (· % 256)

theorem readCurve_sound {n : Nat} {input : List Char} {sp te : List Nat}
    (hn : 1 ≤ n) (h : readCurve n input = some (sp, te)) :
    ∃ toks, TokDecomp TokCode (2 * n - 1) input toks ∧
      sp = decSpeeds toks ∧ te = decTemps toks ∧
      tempsOK 0 te = true ∧ speedsOK sp = true := by
  rw [readCurve] at h
  rcases hs : scanInts (2 * n - 1) input with _ | ⟨data, rest⟩
  · rw [hs] at h; exact absurd h (by simp)
  · rw [hs] at h
    have h' : (if (stripNl rest).isEmpty then
        if tempsOK 0 ((odds data).map (· % 256)) ∧ speedsOK ((evens data).map (· % 256)) then
          some ((evens data).map (· % 256), (odds data).map (· % 256))
        else none
      else none) = some (sp, te) := h
    by_cases hemp : (stripNl rest).isEmpty
    · rw [if_pos hemp] at h'
      by_cases hval : tempsOK 0 ((odds data).map (· % 256)) = true
          ∧ speedsOK ((evens data).map (· % 256)) = true
      · rw [if_pos (by exact_mod_cast hval)] at h'
        obtain ⟨hsp, hte⟩ : (evens data).map (· % 256) = sp ∧ (odds data).map (· % 256) = te := by
          cases h'; exact ⟨rfl, rfl⟩
        obtain ⟨m, hm⟩ : ∃ m, 2 * n - 1 = m + 1 := ⟨2 * n - 2, by omega⟩
        rw [hm] at hs
        obtain ⟨lead, toks, seps, hl1, hl2, hlead, htoks, hseps, hin, hdata, _⟩ :=
          scanInts_sound m input data rest hs
        refine ⟨toks,
          ⟨lead, seps, rest, by omega, by omega, hlead, htoks, hseps,
            (stripNl_empty_iff rest).mp hemp, hin⟩, ?_, ?_, ?_, ?_⟩
        · rw [← hsp, hdata]; rfl
        · rw [← hte, hdata]; rfl
        · rw [← hte]; exact hval.1
        · rw [← hsp]; exact hval.2
      · rw [if_neg (by exact_mod_cast hval)] at h'
        exact absurd h' (by simp)
    · rw [if_neg hemp] at h'
      exact absurd h' (by simp)

theorem readCurve_complete {n : Nat} {input : List Char} {toks : List (List Char)}
    (hd : TokDecomp TokCode (2 * n - 1) input toks)
    (hte : tempsOK 0 (decTemps toks) = true) (hsp : speedsOK (decSpeeds toks) = true) :
    readCurve n input = some (decSpeeds toks, decTemps toks) := by
  obtain ⟨lead, seps, tail, hl1, hl2, hlead, htoks, hseps, htail, hin⟩ := hd
  have hrest : HeadNot isDigitC tail := by
    rcases htail with rfl | rfl
    · trivial
    · show isDigitC '\n' = false
      decide
  have hscan0 := scanInts_build toks seps lead tail (by omega) hlead htoks hseps hrest
  rw [hl1, ← hin] at hscan0
  have hscan : scanInts (2 * n - 1) input = some (tokVals toks, tail) := hscan0
  rw [readCurve, hscan]
  have hemp : (stripNl tail).isEmpty = true := (stripNl_empty_iff tail).mpr htail
  show (if (stripNl tail).isEmpty then _ else none) = _
  rw [if_pos hemp,
    if_pos (show tempsOK 0 ((odds (tokVals toks)).map (· % 256)) = true
        ∧ speedsOK ((evens (tokVals toks)).map (· % 256)) = true from ⟨hte, hsp⟩)]
  rfl

/-! ### Facts about the printer -/

theorem digitChar_facts :
    ∀ d < 10, digitVal (digitChar d) = d ∧ isDigitC (digitChar d) = true := by decide

theorem repC_ne_nil (v : Nat) : repC v ≠ [] := by
  rw [repC, repCAux]; split <;> simp

theorem repCAux_digits :
    ∀ (fuel v : Nat), v < fuel → ∀ c ∈ repCAux fuel v, isDigitC c = true
  | 0, _, hf, _, _ => by omega
  | fuel + 1, v, hf, c, hc => by
    rw [repCAux] at hc
    split at hc
    · rename_i h
      simp only [List.mem_singleton] at hc
      subst hc
      exact (digitChar_facts v h).2
    · rename_i h
      rcases List.mem_append.mp hc with h' | h'
      · exact repCAux_digits fuel (v / 10) (by omega) c h'
      · simp only [List.mem_singleton] at h'
        subst h'
        exact (digitChar_facts (v % 10) (Nat.mod_lt _ (by norm_num))).2

theorem repC_digits (v : Nat) : ∀ c ∈ repC v, isDigitC c = true :=
  repCAux_digits (v + 1) v (by omega)

theorem digitsVal_append_single (l : List Char) (c : Char) :
    digitsVal (l ++ [c]) = 10 * digitsVal l + digitVal c := by
  simp [digitsVal, List.foldl_append]

theorem digitsVal_repCAux :
    ∀ (fuel v : Nat), v < fuel → digitsVal (repCAux fuel v) = v
  | 0, _, hf => by omega
  | fuel + 1, v, hf => by
    rw [repCAux]
    split
    · rename_i h
      simp [digitsVal, (digitChar_facts v h).1]
    · rename_i h
      rw [digitsVal_append_single, digitsVal_repCAux fuel (v / 10) (by omega),
        (digitChar_facts (v % 10) (Nat.mod_lt _ (by norm_num))).1]
      omega

theorem digitsVal_repC (v : Nat) : digitsVal (repC v) = v :=
  digitsVal_repCAux (v + 1) v (by omega)

theorem encodeVals_eq_joinTS :
    ∀ vals : List Nat, vals ≠ [] →
      encodeVals vals = joinTS (vals.map repC) (List.replicate (vals.length - 1) [' '])
  | [], h => absurd rfl h
  | [v], _ => by simp [encodeVals, joinTS]
  | v :: w :: rest, _ => by
    have ih := encodeVals_eq_joinTS (w :: rest) (by simp)
    show repC v ++ ' ' :: encodeVals (w :: rest) = _
    rw [ih]
    simp only [List.map_cons]
    rw [show ((v : Nat) :: w :: rest).length - 1 = ((w :: rest).length - 1) + 1 by
      simp [List.length_cons]]
    rw [List.replicate_succ]
    rw [show joinTS (repC v :: repC w :: rest.map repC)
        ([' '] :: List.replicate ((w :: rest).length - 1) [' ']) =
      repC v ++ [' '] ++ joinTS (repC w :: rest.map repC)
        (List.replicate ((w :: rest).length - 1) [' ']) from rfl]
    simp

theorem interleaveL_length :
    ∀ (te sp : List Nat), sp.length = te.length + 1 →
      (interleaveL sp te).length = sp.length + te.length
  | [], sp, h => by
    obtain ⟨s, rfl⟩ : ∃ s, sp = [s] := by
      cases sp with
      | nil => simp at h
      | cons a b =>
        cases b with
        | nil => exact ⟨a, rfl⟩
        | cons c d => simp at h
    rfl
  | t :: ts, sp, h => by
    obtain ⟨s, s', ss, rfl⟩ : ∃ s s' ss, sp = s :: s' :: ss := by
      cases sp with
      | nil => simp at h
      | cons a b =>
        cases b with
        | nil => simp at h
        | cons c d => exact ⟨a, c, d, rfl⟩
    have ih := interleaveL_length ts (s' :: ss) (by simpa using h)
    show (s :: t :: interleaveL (s' :: ss) ts).length = _
    simp only [List.length_cons] at ih ⊢
    omega

theorem mem_interleaveL :
    ∀ (sp te : List Nat) (v : Nat), v ∈ interleaveL sp te → v ∈ sp ∨ v ∈ te
  | [], _, v, h => by simp [interleaveL] at h
  | [s], te, v, h => by
    simp only [interleaveL, List.mem_singleton] at h
    subst h
    simp
  | s :: s' :: ss, [], v, h => by
    rw [show interleaveL (s :: s' :: ss) [] = s :: interleaveL (s' :: ss) [] from rfl] at h
    rcases List.mem_cons.mp h with rfl | h'
    · simp
    · rcases mem_interleaveL (s' :: ss) [] v h' with h'' | h''
      · exact Or.inl (by simp [List.mem_cons.mp h''])
      · exact Or.inr h''
  | s :: s' :: ss, t :: ts, v, h => by
    rw [show interleaveL (s :: s' :: ss) (t :: ts) =
      s :: t :: interleaveL (s' :: ss) ts from rfl] at h
    rcases List.mem_cons.mp h with rfl | h'
    · simp
    · rcases List.mem_cons.mp h' with rfl | h''
      · simp
      · rcases mem_interleaveL (s' :: ss) ts v h'' with h3 | h3
        · exact Or.inl (by simp [List.mem_cons.mp h3])
        · exact Or.inr (by simp [h3])

theorem evens_interleaveL :
    ∀ (te sp : List Nat), sp.length = te.length + 1 → evens (interleaveL sp te) = sp
  | [], sp, h => by
    obtain ⟨s, rfl⟩ : ∃ s, sp = [s] := by
      cases sp with
      | nil => simp at h
      | cons a b =>
        cases b with
        | nil => exact ⟨a, rfl⟩
        | cons c d => simp at h
    rfl
  | t :: ts, sp, h => by
    obtain ⟨s, s', ss, rfl⟩ : ∃ s s' ss, sp = s :: s' :: ss := by
      cases sp with
      | nil => simp at h
      | cons a b =>
        cases b with
        | nil => simp at h
        | cons c d => exact ⟨a, c, d, rfl⟩
    have ih := evens_interleaveL ts (s' :: ss) (by simpa using h)
    show evens (s :: t :: interleaveL (s' :: ss) ts) = _
    rw [show evens (s :: t :: interleaveL (s' :: ss) ts) =
      s :: evens (interleaveL (s' :: ss) ts) from rfl, ih]

theorem odds_interleaveL :
    ∀ (te sp : List Nat), sp.length = te.length + 1 → odds (interleaveL sp te) = te
  | [], sp, h => by
    obtain ⟨s, rfl⟩ : ∃ s, sp = [s] := by
      cases sp with
      | nil => simp at h
      | cons a b =>
        cases b with
        | nil => exact ⟨a, rfl⟩
        | cons c d => simp at h
    rfl
  | t :: ts, sp, h => by
    obtain ⟨s, s', ss, rfl⟩ : ∃ s s' ss, sp = s :: s' :: ss := by
      cases sp with
      | nil => simp at h
      | cons a b =>
        cases b with
        | nil => simp at h
        | cons c d => exact ⟨a, c, d, rfl⟩
    have ih := odds_interleaveL ts (s' :: ss) (by simpa using h)
    show odds (s :: t :: interleaveL (s' :: ss) ts) = _
    rw [show odds (s :: t :: interleaveL (s' :: ss) ts) =
      t :: odds (interleaveL (s' :: ss) ts) from rfl, ih]

theorem toInt32_small {v : Nat} (h : v < 256) : toInt32 v = (v : Int) := by
  have hm : v % 2 ^ 32 = v := Nat.mod_eq_of_lt (lt_of_lt_of_le h (by norm_num))
  rw [toInt32, hm, if_pos (lt_of_lt_of_le h (by norm_num))]

theorem tokVals_map_repC {vals : List Nat} (h : ∀ v ∈ vals, v < 256) :
    tokVals (vals.map repC) = vals := by
  induction vals with
  | nil => rfl
  | cons v vs ih =>
    have hv : v < 256 := h v (by simp)
    show digitsVal (repC v) % 2 ^ 32 :: tokVals (vs.map repC) = v :: vs
    rw [digitsVal_repC, Nat.mod_eq_of_lt (lt_of_lt_of_le hv (by norm_num)),
      ih (fun u hu => h u (by simp [hu]))]

theorem map_mod256_eq {l : List Nat} (h : ∀ v ∈ l, v < 256) : l.map (· % 256) = l := by
  induction l with
  | nil => rfl
  | cons v vs ih =>
    show v % 256 :: vs.map (· % 256) = v :: vs
    rw [Nat.mod_eq_of_lt (h v (by simp)), ih (fun u hu => h u (by simp [hu]))]

theorem tempsOK_le :
    ∀ (late : Nat) (ts : List Nat), tempsOK late ts = true → ∀ t ∈ ts, t ≤ 100
  | _, [], _, t, ht => by simp at ht
  | late, u :: ts, h, t, ht => by
    rw [tempsOK] at h
    split at h
    · rename_i hc
      rcases List.mem_cons.mp ht with rfl | ht'
      · exact hc.2
      · exact tempsOK_le u ts h t ht'
    · exact absurd h (by simp)

theorem speedsOK_le {sp : List Nat} (h : speedsOK sp = true) : ∀ v ∈ sp, v ≤ 150 := by
  intro v hv
  simpa using (List.all_eq_true.mp h) v hv

/-! ### The round trip -/

theorem printCurve_roundtrip {sp te : List Nat} {tail : List Char}
    (hlen : sp.length = te.length + 1)
    (htOK : tempsOK 0 te = true) (hsOK : speedsOK sp = true)
    (htail : tail = [] ∨ tail = ['\n']) :
    readCurve sp.length (printCurveL sp te ++ tail) = some (sp, te) := by
  have hbound : ∀ v ∈ interleaveL sp te, v < 256 := by
    intro v hv
    rcases mem_interleaveL sp te v hv with h | h
    · exact lt_of_le_of_lt (speedsOK_le hsOK v h) (by norm_num)
    · exact lt_of_le_of_lt (tempsOK_le 0 te htOK v h) (by norm_num)
  have hne : interleaveL sp te ≠ [] := by
    have := interleaveL_length te sp hlen
    intro hnil
    rw [hnil] at this
    simp at this
    omega
  have hilen : (interleaveL sp te).length = 2 * sp.length - 1 := by
    rw [interleaveL_length te sp hlen]
    omega
  have hd : TokDecomp TokCode (2 * sp.length - 1) (printCurveL sp te ++ tail)
      ((interleaveL sp te).map repC) := by
    refine ⟨[], List.replicate ((interleaveL sp te).length - 1) [' '], tail,
      by simpa using hilen, ?_, by simp, ?_, ?_, htail, ?_⟩
    · rw [List.length_replicate]
      have hpos : 1 ≤ (interleaveL sp te).length :=
        Nat.one_le_iff_ne_zero.mpr (by simpa [List.length_eq_zero] using hne)
      omega
    · intro t ht
      obtain ⟨v, hv, rfl⟩ := List.mem_map.mp ht
      have hv256 : v < 256 := hbound v hv
      refine ⟨⟨repC_ne_nil v, repC_digits v⟩, ?_⟩
      rw [TokCode, digitsVal_repC, toInt32_small hv256]
      exact_mod_cast hv256
    · intro s hs
      have : s = [' '] := List.eq_of_mem_replicate hs
      subst this
      exact ⟨by simp, by intro c hc; simp only [List.mem_singleton] at hc; subst hc; decide⟩
    · rw [printCurveL, encodeVals_eq_joinTS _ hne]
      simp
  have := readCurve_complete hd
    (by rw [decTemps, tokVals_map_repC hbound, odds_interleaveL te sp hlen,
          map_mod256_eq (fun v hv => lt_of_le_of_lt (tempsOK_le 0 te htOK v hv) (by norm_num))]
        exact htOK)
    (by rw [decSpeeds, tokVals_map_repC hbound, evens_interleaveL te sp hlen,
          map_mod256_eq (fun v hv => lt_of_le_of_lt (speedsOK_le hsOK v hv) (by norm_num))]
        exact hsOK)
  rw [this, decSpeeds, decTemps, tokVals_map_repC hbound,
    evens_interleaveL te sp hlen, odds_interleaveL te sp hlen,
    map_mod256_eq (fun v hv => lt_of_le_of_lt (speedsOK_le hsOK v hv) (by norm_num)),
    map_mod256_eq (fun v hv => lt_of_le_of_lt (tempsOK_le 0 te htOK v hv) (by norm_num))]

/-! ## Claim C4 and claim C6 -/

/-- C4 (amended): for a curve with `entries_count = n ≥ 1`, the whole-curve
text store (`read_curve`) succeeds iff the input consists of exactly
`2·n−1` whitespace-separated decimal digit tokens — each passing the
signed 32-bit comparison `(int)(u32)value < 256` that the code performs,
rather than the claim's `value < 256` — followed by nothing except an
optional trailing newline, with the decoded temperature bytes strictly
increasing from a positive first breakpoint and at most 100 and the
decoded speed bytes at most 150; every failure is `-EINVAL` (`none`). -/
theorem c4_parse_grammar_iff {n : Nat} (hn : 1 ≤ n) (input : List Char) :
    (∃ out, readCurve n input = some out) ↔
    ∃ toks, TokDecomp TokCode (2 * n - 1) input toks ∧
      tempsOK 0 (decTemps toks) = true ∧ speedsOK (decSpeeds toks) = true := by
  constructor
  · rintro ⟨⟨sp, te⟩, h⟩
    obtain ⟨toks, hd, hsp, hte, hts, hss⟩ := readCurve_sound hn h
    exact ⟨toks, hd, by rw [← hte]; exact hts, by rw [← hsp]; exact hss⟩
  · rintro ⟨toks, hd, hts, hss⟩
    exact ⟨_, readCurve_complete hd hts hss⟩

theorem c4_parse_grammar_iff_witness :
    (∃ out, readCurve 3 "10 40 60 70 90".toList = some out) ↔
    ∃ toks, TokDecomp TokCode (2 * 3 - 1) "10 40 60 70 90".toList toks ∧
      tempsOK 0 (decTemps toks) = true ∧ speedsOK (decSpeeds toks) = true :=
  c4_parse_grammar_iff (by decide) "10 40 60 70 90".toList

/-- C4 as stated is false: "10 40 60 4294967140 90" contains the token
4294967140 ≥ 256, yet the store accepts it — the value wraps to the
signed 32-bit −156, passes `data[i] >= 256`, and its low byte 100 then
passes validation as the second temperature breakpoint. -/
theorem c4_counterexample :
    readCurve 3 "10 40 60 4294967140 90".toList = some ([10, 60, 90], [40, 100]) ∧
    ¬ GrammarOK TokOrig (2 * 3 - 1) "10 40 60 4294967140 90".toList := by
  refine ⟨by decide, ?_⟩
  rintro ⟨toks, lead, seps, tail, hl1, hl2, hlead, htoks, hseps, htail, hin⟩
  have htoks' : ∀ t ∈ toks, DigitTok t ∧ TokCode (digitsVal t) := by
    intro t ht
    obtain ⟨hd, hP⟩ := htoks t ht
    exact ⟨hd, by rw [TokCode, toInt32_small hP]; exact_mod_cast (hP : digitsVal t < 256)⟩
  have hrest : HeadNot isDigitC tail := by
    rcases htail with rfl | rfl
    · trivial
    · show isDigitC '\n' = false
      decide
  have hscan := scanInts_build toks seps lead tail (by omega) hlead htoks' hseps hrest
  rw [hl1, ← hin] at hscan
  have hconc : scanInts (2 * 3 - 1) "10 40 60 4294967140 90".toList =
      some ([10, 40, 60, 4294967140, 90], []) := by decide
  have heq := hconc.symm.trans hscan
  rw [Option.some.injEq, Prod.mk.injEq] at heq
  have hmem : (4294967140 : Nat) ∈ toks.map (fun t => digitsVal t % 2 ^ 32) := by
    rw [← heq.1]
    simp
  obtain ⟨t, ht, hval⟩ := List.mem_map.mp hmem
  have hlt : digitsVal t < 256 := (htoks t ht).2
  rw [Nat.mod_eq_of_lt (lt_of_lt_of_le hlt (by norm_num))] at hval
  omega

/-- C6: encoding a buffer pair accepted by the whole-curve validator
(strictly increasing temperatures from a positive first breakpoint, at
most 100; speeds at most 150) to the wire text and decoding it
reproduces the identical buffers (with or without the trailing newline
that `sysfs_emit` appends); concretely, for `entries_count = 3`,
"10 40 60 70 90" decodes to speeds [10, 60, 90] and temperatures
[40, 70], and re-encoding yields the identical string. -/
theorem c6_roundtrip {sp te : List Nat} (hlen : sp.length = te.length + 1)
    (htOK : tempsOK 0 te = true) (hsOK : speedsOK sp = true) :
    (readCurve sp.length (printCurveL sp te) = some (sp, te) ∧
      readCurve sp.length (printCurveL sp te ++ ['\n']) = some (sp, te)) ∧
    (readCurve 3 "10 40 60 70 90".toList = some ([10, 60, 90], [40, 70]) ∧
      printCurveL [10, 60, 90] [40, 70] = "10 40 60 70 90".toList) := by
  refine ⟨⟨?_, ?_⟩, by decide, by decide⟩
  · simpa using printCurve_roundtrip hlen htOK hsOK (Or.inl rfl)
  · exact printCurve_roundtrip hlen htOK hsOK (Or.inr rfl)

theorem c6_roundtrip_witness :
    (readCurve ([10, 60, 90] : List Nat).length (printCurveL [10, 60, 90] [40, 70]) =
        some ([10, 60, 90], [40, 70]) ∧
      readCurve ([10, 60, 90] : List Nat).length (printCurveL [10, 60, 90] [40, 70] ++ ['\n']) =
        some ([10, 60, 90], [40, 70])) ∧
    (readCurve 3 "10 40 60 70 90".toList = some ([10, 60, 90], [40, 70]) ∧
      printCurveL [10, 60, 90] [40, 70] = "10 40 60 70 90".toList) :=
  c6_roundtrip (by decide) (by decide) (by decide)

/-! ## The profile resolver: `load_configuration` (msi-ec.c:4846-4883)

`load_configuration` scans `CONFIGURATIONS[]` in declared order;
`match_string(conf->allowed_fw, -1, ver) != -EINVAL` holds iff `ver`
is `strcmp`-equal to one of the profile's accepted firmware strings.
On a match the whole configuration is `memcpy`ed into the active one,
its `allowed_fw` is nulled and `conf_loaded` is set; with no match the
function returns 0 in debug mode (nothing loaded) and `-EOPNOTSUPP`
otherwise.  A profile is its accepted-identifier list plus an opaque
payload (the register map). -/

structure FwProfile (α : Type) where
  allowedFw : List String
  payload : α

/-- `loadConfiguration debug ver table = (status, loaded)`; `loaded =
none` models `conf_loaded == false`. -/
def loadConfiguration {α : Type} (debug : Bool) (ver : String) :
    List (FwProfile α) → Int × Option (FwProfile α)
  | [] => if debug then (0, none) else (EOPNOTSUPP, none)
  | p :: rest =>
    if ver ∈ p.allowedFw then (0, some { p with allowedFw := [] })
    else loadConfiguration debug ver rest

/-- C7: profile resolution scans the table in declared order and loads
the first profile whose accepted identifier list contains the input
exactly, stopping there; an identifier in no profile's list yields
`-EOPNOTSUPP` with nothing loaded when debug mode is off, and success
with nothing loaded when debug mode is on. -/
theorem c7_profile_resolution {α : Type} (debug : Bool) (ver : String) :
    (∀ (pre post : List (FwProfile α)) (p : FwProfile α),
      (∀ q ∈ pre, ver ∉ q.allowedFw) → ver ∈ p.allowedFw →
      loadConfiguration debug ver (pre ++ p :: post) = (0, some { p with allowedFw := [] })) ∧
    (∀ table : List (FwProfile α), (∀ q ∈ table, ver ∉ q.allowedFw) →
      loadConfiguration debug ver table = (if debug then (0, none) else (EOPNOTSUPP, none))) := by
  constructor
  · intro pre post p hpre hp
    induction pre with
    | nil => simp [loadConfiguration, hp]
    | cons q qs ih =>
      rw [List.cons_append, loadConfiguration, if_neg (hpre q (by simp))]
      exact ih (fun u hu => hpre u (by simp [hu]))
  · intro table htab
    induction table with
    | nil => rfl
    | cons q qs ih =>
      rw [loadConfiguration, if_neg (htab q (by simp))]
      exact ih (fun u hu => htab u (by simp [hu]))

theorem c7_profile_resolution_witness :
    loadConfiguration false "1T52EMS1.104"
      [⟨["14C1EMS1.012", "14C1EMS1.101", "14C1EMS1.102"], 0⟩,
       ⟨["1T52EMS1.104"], 401⟩, ⟨["1T52EMS1.104"], 999⟩] =
      (0, some (⟨[], 401⟩ : FwProfile Nat)) ∧
    loadConfiguration false "NOSUCHFW.000"
      [⟨["14C1EMS1.012", "14C1EMS1.101", "14C1EMS1.102"], 0⟩,
       ⟨["1T52EMS1.104"], 401⟩] = (EOPNOTSUPP, (none : Option (FwProfile Nat))) ∧
    loadConfiguration true "NOSUCHFW.000"
      [⟨["14C1EMS1.012", "14C1EMS1.101", "14C1EMS1.102"], 0⟩] =
      (0, (none : Option (FwProfile Nat))) :=
  ⟨(c7_profile_resolution false "1T52EMS1.104").1
      [⟨["14C1EMS1.012", "14C1EMS1.101", "14C1EMS1.102"], 0⟩]
      [⟨["1T52EMS1.104"], 999⟩] ⟨["1T52EMS1.104"], 401⟩
      (by decide) (by decide),
   (c7_profile_resolution false "NOSUCHFW.000").2
      [⟨["14C1EMS1.012", "14C1EMS1.101", "14C1EMS1.102"], 0⟩, ⟨["1T52EMS1.104"], 401⟩]
      (by decide),
   (c7_profile_resolution true "NOSUCHFW.000").2
      [⟨["14C1EMS1.012", "14C1EMS1.101", "14C1EMS1.102"], 0⟩]
      (by decide)⟩

/-! ## The EC device and the register access primitives (msi-ec.c:3327-3422)

The EC is a byte-addressed memory with per-address read/write
availability; a denied access is a failing `ec_read`/`ec_write` (the
bus I/O error path). -/

structure EcDev where
  mem : Nat → Nat
  readOk : Nat → Bool
  writeOk : Nat → Bool

def ecRead (d : EcDev) (a : Nat) : Option Nat :=
  if d.readOk a then some (d.mem a) else none

def ecWrite (d : EcDev) (a v : Nat) : Option EcDev :=
  if d.writeOk a then some { d with mem := Function.update d.mem a v } else none

/-- `ec_set_bit`: read-modify-write of one bit. -/
def ecSetBit (d : EcDev) (a bit : Nat) (value : Bool) : Option EcDev :=
  match ecRead d a with
  | none => none
  | some stored =>
    ecWrite d a (if value then stored ||| (1 <<< bit) else Nat.ldiff stored (1 <<< bit))

/-- `ec_check_bit`. -/
def ecCheckBit (d : EcDev) (a bit : Nat) : Option Bool :=
  match ecRead d a with
  | none => none
  | some stored => some (stored &&& (1 <<< bit) ≠ 0)

/-! ## Fan curves and the configuration (registers_configuration.h, msi-ec.c) -/

def STRATEGY_NORMAL : Nat := 0
def STRATEGY_RESET_ON_AUTO : Nat := 1
def CURVE_MAX_ENTRIES : Nat := 16

def FM_AUTO : String := "auto"
def FM_SILENT : String := "silent"
def FM_BASIC : String := "basic"
def FM_ADVANCED : String := "advanced"

structure FanCurve where
  speedStart : Nat
  tempStart : Nat
  entries : Nat
  applyStrategy : Nat
  maxSpeed : Nat

/-- `is_curve_allowed` (msi-ec.c:4047-4057).  `entries_count <= 0` on
the C `int` is `entries = 0` here: every configured count is a small
positive literal. -/
def isCurveAllowed (c : FanCurve) : Bool :=
  ¬(c.speedStart = ADDR_UNSUPP ∨ c.speedStart = 0 ∨
    c.tempStart = ADDR_UNSUPP ∨ c.tempStart = 0 ∨
    c.entries = 0 ∨ c.entries > CURVE_MAX_ENTRIES)

/-- The fan-relevant slice of `struct msi_ec_conf`.  `fanModes` is the
fixed five-slot array; `none` is an `MSI_EC_MODE_NULL` entry (`NULL`
name). -/
structure Conf where
  fanModeAddr : Nat
  fanModes : List (Option (String × Nat))
  coolerBoostAddr : Nat
  coolerBoostBit : Nat
  cpuCurve : FanCurve
  gpuCurve : FanCurve

/-- `CONF401` (msi-ec.c:2903-2982), the only profile in the registry
with configured fan curves. -/
def conf401 : Conf :=
  { fanModeAddr := 0xd4
    fanModes := [some (FM_AUTO, 0x00), some (FM_SILENT, 0x10), some (FM_ADVANCED, 0x80),
      none, none]
    coolerBoostAddr := 0x98
    coolerBoostBit := 7
    cpuCurve :=
      { speedStart := 0x72, tempStart := 0x6a, entries := 7
        applyStrategy := STRATEGY_RESET_ON_AUTO, maxSpeed := 150 }
    gpuCurve :=
      { speedStart := 0x8a, tempStart := 0x82, entries := 7
        applyStrategy := STRATEGY_RESET_ON_AUTO, maxSpeed := 150 } }

/-- Per-fan buffers: the active curve and the startup default snapshot
(`cpu_curve_fan_speed`, `cpu_curve_temp` and their `_default` pairs). -/
structure FanBufs where
  speed : Nat → Nat
  temp : Nat → Nat
  speedDef : Nat → Nat
  tempDef : Nat → Nat

/-- The engine state: the device plus both fans' buffers and the
`virtual_hwmon_pwm_enable[2]` cache. -/
structure EngineSt where
  dev : EcDev
  cpu : FanBufs
  gpu : FanBufs
  virt0 : Int
  virt1 : Int

/-! ## The curve sync engine (msi-ec.c:4061-4122) -/

/-- The read loop of `sync_ec_curve`: `buf[i] = EC[start + i]`,
aborting at the first failed read and keeping the entries already
filled. -/
def readInto (d : EcDev) (start : Nat) : (Nat → Nat) → Nat → Nat → Bool × (Nat → Nat)
  | buf, _, 0 => (true, buf)
  | buf, i, n + 1 =>
    match ecRead d (start + i) with
    | none => (false, buf)
    | some v => readInto d start (Function.update buf i v) (i + 1) n

/-- The write loop of `push_ec_curve`: `EC[start + i] = buf[i]`,
aborting at the first failed write and keeping the writes already
made. -/
def writeFrom (start : Nat) (buf : Nat → Nat) : EcDev → Nat → Nat → Bool × EcDev
  | d, _, 0 => (true, d)
  | d, i, n + 1 =>
    match ecWrite d (start + i) (buf i) with
    | none => (false, d)
    | some d' => writeFrom start buf d' (i + 1) n

/-- `sync_ec_curve`: pull `entries` speed bytes then `entries - 1`
temperature bytes into the buffers. -/
def syncEcCurve (c : FanCurve) (d : EcDev) (sb tb : Nat → Nat) :
    Int × (Nat → Nat) × (Nat → Nat) :=
  if isCurveAllowed c = false then (EINVAL, sb, tb)
  else
    let r1 := readInto d c.speedStart sb 0 c.entries
    if r1.1 = false then ( EIO, r1.2, tb)
    else
      let r2 := readInto d c.tempStart tb 0 (c.entries - 1)
      if r2.1 = false then ( EIO, r1.2, r2.2)
      else (0, r1.2, r2.2)

/-- `push_ec_curve`: the symmetric write. -/
def pushEcCurve (c : FanCurve) (d : EcDev) (sb tb : Nat → Nat) : Int × EcDev :=
  if isCurveAllowed c = false then (EINVAL, d)
  else
    let r1 := writeFrom c.speedStart sb d 0 c.entries
    if r1.1 = false then ( EIO, r1.2)
    else
      let r2 := writeFrom c.tempStart tb r1.2 0 (c.entries - 1)
      if r2.1 = false then ( EIO, r2.2)
      else (0, r2.2)

/-! ## Fan-mode register helpers (msi-ec.c:3896-3957, 5273-5342) -/

/-- The `fan_mode_get` scan: iterate while `modes[i].name != NULL`,
returning the first name whose register value matches. -/
def fanModeLookup : List (Option (String × Nat)) → Nat → Option String
  | [], _ => none
  | none :: _, _ => none
  | some (nm, v) :: rest, r => if r = v then some nm else fanModeLookup rest r

/-- The result of `fan_mode_get`: `ok name` is return value 0 with
`*dst` set; `err s` is the nonzero return (`s < 0` a read failure,
`s > 0` the raw unrecognized register value, `MSI_EC_ADDR_UNSUPP` when
that value is 0). -/
inductive FanModeRes where
  | ok (name : String)
  | err (status : Int)
deriving DecidableEq

def fanModeGet (cfg : Conf) (d : EcDev) : FanModeRes :=
  match ecRead d cfg.fanModeAddr with
  | none => .err EIO
  | some rdata =>
    match fanModeLookup cfg.fanModes rdata with
    | some nm => .ok nm
    | none => .err (if rdata = 0 then ((ADDR_UNSUPP : Nat) : Int) else (rdata : Int))

/-- `sync_ec_curve_safe`: with the `ResetOnAuto` strategy, any nonzero
`fan_mode_get` is `-ENODATA`, a non-advanced mode is a silent success
without I/O, and only the advanced mode proceeds to the pull. -/
def syncEcCurveSafe (cfg : Conf) (c : FanCurve) (d : EcDev) (sb tb : Nat → Nat) :
    Int × (Nat → Nat) × (Nat → Nat) :=
  if c.applyStrategy = STRATEGY_RESET_ON_AUTO then
    match fanModeGet cfg d with
    | .err _ => (ENODATA, sb, tb)
    | .ok nm => if nm = FM_ADVANCED then syncEcCurve c d sb tb else (0, sb, tb)
  else syncEcCurve c d sb tb

/-- `push_ec_curve_safe`, the symmetric wrapper. -/
def pushEcCurveSafe (cfg : Conf) (c : FanCurve) (d : EcDev) (sb tb : Nat → Nat) :
    Int × EcDev :=
  if c.applyStrategy = STRATEGY_RESET_ON_AUTO then
    match fanModeGet cfg d with
    | .err _ => (ENODATA, d)
    | .ok nm => if nm = FM_ADVANCED then pushEcCurve c d sb tb else (0, d)
  else pushEcCurve c d sb tb

/-- `fan_mode_is_available` (msi-ec.c:5273-5283): scans all five slots
with `strcmp(conf.fan_mode.modes[i].name, mode)` and **no** NULL-name
guard; reaching an `MSI_EC_MODE_NULL` slot evaluates `strcmp(NULL, …)`,
modelled as `none` (undefined behavior / oops). -/
def fanModeIsAvailable : List (Option (String × Nat)) → String → Option Bool
  | [], _ => some false
  | none :: _, _ => none
  | some (nm, _) :: rest, m => if nm = m then some true else fanModeIsAvailable rest m

/-- The matching scan of `set_fan_mode` (msi-ec.c:5319-5342), which
**does** guard NULL names (`modes[i].name && strcmp(...) == 0`). -/
def setFanModeFind : List (Option (String × Nat)) → String → Option Nat
  | [], _ => none
  | none :: rest, m => setFanModeFind rest m
  | some (nm, v) :: rest, m => if nm = m then some v else setFanModeFind rest m

/-! ## The apply-strategy transition: `curve_fan_mode_change`
(msi-ec.c:4354-4395) -/

/-- One pack of the entering-manual loop: unconditional
`push_ec_curve` of the **active** buffers for a `ResetOnAuto`, allowed
curve. -/
def enterManualCurve (c : FanCurve) (d : EcDev) (b : FanBufs) : Int × EcDev :=
  if c.applyStrategy = STRATEGY_RESET_ON_AUTO ∧ isCurveAllowed c = true then
    pushEcCurve c d b.speed b.temp
  else (0, d)

/-- One pack of the leaving-manual loop: `sync_ec_curve_safe` into the
active buffers with its **status discarded**, then unconditional
`push_ec_curve` of the **default** buffers. -/
def leaveManualCurve (cfg : Conf) (c : FanCurve) (d : EcDev) (b : FanBufs) :
    Int × EcDev × FanBufs :=
  if c.applyStrategy = STRATEGY_RESET_ON_AUTO ∧ isCurveAllowed c = true then
    let r := syncEcCurveSafe cfg c d b.speed b.temp
    let b' := { b with speed := r.2.1, temp := r.2.2 }
    let p := pushEcCurve c d b.speedDef b.tempDef
    (p.1, p.2, b')
  else (0, d, b)

def curveFanModeChange (cfg : Conf) (mode : String) (st : EngineSt) : Int × EngineSt :=
  if mode = FM_ADVANCED then
    let r1 := enterManualCurve cfg.cpuCurve st.dev st.cpu
    if r1.1 < 0 then (r1.1, { st with dev := r1.2 })
    else
      let r2 := enterManualCurve cfg.gpuCurve r1.2 st.gpu
      if r2.1 < 0 then (r2.1, { st with dev := r2.2 })
      else (0, { st with dev := r2.2 })
  else
    let r1 := leaveManualCurve cfg cfg.cpuCurve st.dev st.cpu
    if r1.1 < 0 then (r1.1, { st with dev := r1.2.1, cpu := r1.2.2 })
    else
      let r2 := leaveManualCurve cfg cfg.gpuCurve r1.2.1 st.gpu
      if r2.1 < 0 then (r2.1, { st with dev := r2.2.1, cpu := r1.2.2, gpu := r2.2.2 })
      else (0, { st with dev := r2.2.1, cpu := r1.2.2, gpu := r2.2.2 })

/-- `set_fan_mode`: find the mode's register value, run the curve
transition, then write the shared fan-mode register. -/
def setFanMode (cfg : Conf) (mode : String) (st : EngineSt) : Int × EngineSt :=
  match setFanModeFind cfg.fanModes mode with
  | none => (EINVAL, st)
  | some v =>
    let r := curveFanModeChange cfg mode st
    if r.1 < 0 then r
    else
      match ecWrite r.2.dev cfg.fanModeAddr v with
      | none => ( EIO, r.2)
      | some d' => (0, { r.2 with dev := d' })

/-- `set_cooler_boost`. -/
def setCoolerBoost (cfg : Conf) (enable : Bool) (d : EcDev) : Int × EcDev :=
  if cfg.coolerBoostAddr = ADDR_UNSUPP then (EINVAL, d)
  else
    match ecSetBit d cfg.coolerBoostAddr cfg.coolerBoostBit enable with
    | none => ( EIO, d)
    | some d' => (0, d')

/-! ## The hwmon PWM-enable state machine (msi-ec.c:5359-5432, 5529-5578) -/

def PWM_ENABLE_FULL : Int := 0
def PWM_ENABLE_MANUAL : Int := 1
def PWM_ENABLE_AUTO : Int := 2
def PWM_ENABLE_SILENT : Int := 3
def PWM_ENABLE_BASIC : Int := 4

def setVirt (st : EngineSt) (ch : Nat) (v : Int) : EngineSt :=
  if ch = 0 then { st with virt0 := v } else { st with virt1 := v }

def getVirt (st : EngineSt) (ch : Nat) : Int :=
  if ch = 0 then st.virt0 else st.virt1

/-- `msi_ec_hwmon_write` for `hwmon_pwm_enable`.  The outer `none` is
the undefined behavior of `fan_mode_is_available` hitting a NULL
sentinel.  Faithful quirks: `virtual_hwmon_pwm_enable[channel] = val`
is executed before any validation; on a channel other than 0/1 the C
falls through to `return result` with `result == 0`. -/
def hwmonWritePwmEnable (cfg : Conf) (st : EngineSt) (ch : Nat) (val : Int) :
    Option (Int × EngineSt) :=
  if ch = 0 ∨ ch = 1 then
    let st := setVirt st ch val
    if val = PWM_ENABLE_FULL then
      if cfg.coolerBoostAddr = ADDR_UNSUPP then some (EINVAL, st)
      else
        let r := setCoolerBoost cfg true st.dev
        some (r.1, setVirt (setVirt { st with dev := r.2 } 0 PWM_ENABLE_FULL) 1 PWM_ENABLE_FULL)
    else if val = PWM_ENABLE_MANUAL then
      let r := setCoolerBoost cfg false st.dev
      let st1 := { st with dev := r.2 }
      match fanModeIsAvailable cfg.fanModes FM_ADVANCED with
      | none => none
      | some true =>
        let r2 := setFanMode cfg FM_ADVANCED st1
        some (r2.1, setVirt (setVirt r2.2 1 PWM_ENABLE_MANUAL) 0 PWM_ENABLE_MANUAL)
      | some false => some (EINVAL, st1)
    else if val = PWM_ENABLE_AUTO then
      let r := setCoolerBoost cfg false st.dev
      let st1 := { st with dev := r.2 }
      if st1.virt1 = PWM_ENABLE_AUTO ∧ st1.virt0 = PWM_ENABLE_AUTO then
        match fanModeIsAvailable cfg.fanModes FM_AUTO with
        | none => none
        | some true => some (setFanMode cfg FM_AUTO st1)
        | some false => some (EINVAL, st1)
      else some (r.1, st1)
    else if val = PWM_ENABLE_SILENT then
      let r := setCoolerBoost cfg false st.dev
      let st1 := { st with dev := r.2 }
      match fanModeIsAvailable cfg.fanModes FM_SILENT with
      | none => none
      | some true =>
        let r2 := setFanMode cfg FM_SILENT st1
        some (r2.1, setVirt (setVirt r2.2 0 PWM_ENABLE_SILENT) 1 PWM_ENABLE_SILENT)
      | some false => some (EINVAL, st1)
    else if val = PWM_ENABLE_BASIC then
      let r := setCoolerBoost cfg false st.dev
      let st1 := { st with dev := r.2 }
      match fanModeIsAvailable cfg.fanModes FM_BASIC with
      | none => none
      | some true =>
        let r2 := setFanMode cfg FM_BASIC st1
        some (r2.1, setVirt (setVirt r2.2 0 PWM_ENABLE_BASIC) 1 PWM_ENABLE_BASIC)
      | some false => some (EINVAL, st1)
    else some (EINVAL, st)
  else some (0, st)

/-- `msi_ec_hwmon_read` for `hwmon_pwm_enable`: `(status, *val, state)`.
`*val` is meaningful only when `status = 0`.  The outer `none` is the
`strcmp(NULL, …)` reached when `fan_mode_get` returns a positive
status and `mode_name` is still NULL. -/
def hwmonReadPwmEnable (cfg : Conf) (st : EngineSt) (ch : Nat) :
    Option (Int × Int × EngineSt) :=
  if ch = 0 ∨ ch = 1 then
    if 0 ≤ getVirt st ch then some (0, getVirt st ch, st)
    else
      match (if cfg.coolerBoostAddr = ADDR_UNSUPP then some false
        else ecCheckBit st.dev cfg.coolerBoostAddr cfg.coolerBoostBit) with
      | none => some ( EIO, 0, st)
      | some true =>
        some (0, PWM_ENABLE_FULL,
          setVirt (setVirt st 1 PWM_ENABLE_FULL) 0 PWM_ENABLE_FULL)
      | some false =>
        match fanModeGet cfg st.dev with
        | .err s => if s < 0 then some (s, 0, st) else none
        | .ok nm =>
          let pv : Int :=
            if nm = FM_ADVANCED then PWM_ENABLE_MANUAL
            else if nm = FM_AUTO then PWM_ENABLE_AUTO
            else if nm = FM_SILENT then PWM_ENABLE_SILENT
            else if nm = FM_BASIC then PWM_ENABLE_BASIC
            else -1
          some (0, pv, setVirt (setVirt st 1 pv) 0 pv)
  else some (EOPNOTSUPP, 0, st)

/-! ## The whole-curve and per-point stores (msi-ec.c:4202-4211, 4978-5080) -/

/-- Sequential buffer update, the `read_curve` copy loop
(`fan_speed_buf[i] = temp_speed_buf[i]`). -/
def updSeq (buf : Nat → Nat) (i : Nat) : List Nat → (Nat → Nat)
  | [] => buf
  | v :: vs => updSeq (Function.update buf i v) (i + 1) vs

/-- `curve_store`: `read_curve` with `conf.cpu.fan_curve.entries_count`
— for **both** fans — then `push_ec_curve_safe` of the updated
buffers. -/
def curveStore (cfg : Conf) (fan : Nat) (st : EngineSt) (input : List Char) :
    Int × EngineSt :=
  let c := if fan = 0 then cfg.cpuCurve else cfg.gpuCurve
  let b := if fan = 0 then st.cpu else st.gpu
  match readCurve cfg.cpuCurve.entries input with
  | none => (EINVAL, st)
  | some (sp, te) =>
    let b' := { b with speed := updSeq b.speed 0 sp, temp := updSeq b.temp 0 te }
    let st1 := if fan = 0 then { st with cpu := b' } else { st with gpu := b' }
    let r := pushEcCurveSafe cfg c st1.dev b'.speed b'.temp
    if r.1 < 0 then (r.1, { st1 with dev := r.2 })
    else (0, { st1 with dev := r.2 })

/-- The common tail of `curve_attr_store`: install the updated buffers
and `push_ec_curve_safe`. -/
def curveAttrFinish (cfg : Conf) (st : EngineSt) (fan : Nat) (c : FanCurve)
    (b' : FanBufs) : Int × EngineSt :=
  let st1 := if fan = 0 then { st with cpu := b' } else { st with gpu := b' }
  let r := pushEcCurveSafe cfg c st1.dev b'.speed b'.temp
  if r.1 < 0 then (r.1, { st1 with dev := r.2 })
  else (0, { st1 with dev := r.2 })

/-- `curve_attr_store` after `kstrtoul` has produced `val` (the C
dispatches on `fan` twice with identical logic, so the branches are
merged here).  A PWM point is bounded by 255 and scaled by
`val * max_speed / 255` (`max_speed` defaulting to 100 when 0, cast to
`u8`); a temperature point is bounded by 100 and stored as is.  No
monotonicity check is performed. -/
def curveAttrStore (cfg : Conf) (st : EngineSt) (fan point : Nat) (isPwm : Bool)
    (val : Nat) : Int × EngineSt :=
  let c := if fan = 0 then cfg.cpuCurve else cfg.gpuCurve
  let b := if fan = 0 then st.cpu else st.gpu
  let maxSpeed := if c.maxSpeed > 0 then c.maxSpeed else 100
  if isPwm then
    if point < 1 ∨ point > c.entries then (EINVAL, st)
    else if val > 255 then (EINVAL, st)
    else
      curveAttrFinish cfg st fan c
        { b with speed := Function.update b.speed (point - 1) (val * maxSpeed / 255 % 256) }
  else
    if point < 1 ∨ point ≥ c.entries then (EINVAL, st)
    else if val > 100 then (EINVAL, st)
    else
      curveAttrFinish cfg st fan c
        { b with temp := Function.update b.temp (point - 1) (val % 256) }

/-! ## Closed forms of the sync primitives on a fully available device -/

/-- Memory after `push_ec_curve`: first the speed range, then the
temperature range (written later, so it wins on overlap). -/
def pushedMem (c : FanCurve) (m sb tb : Nat → Nat) : Nat → Nat :=
  fun x =>
    if c.tempStart ≤ x ∧ x < c.tempStart + (c.entries - 1) then tb (x - c.tempStart)
    else if c.speedStart ≤ x ∧ x < c.speedStart + c.entries then sb (x - c.speedStart)
    else m x

/-- A buffer after a pull of `n` cells starting at `start`. -/
def pulled (m : Nat → Nat) (start n : Nat) (buf : Nat → Nat) : Nat → Nat :=
  fun k => if k < n then m (start + k) else buf k

theorem writeFrom_ok :
    ∀ (n i : Nat) (d : EcDev) (start : Nat) (buf : Nat → Nat),
      (∀ a, d.writeOk a = true) →
      writeFrom start buf d i n =
        (true, { d with mem := fun x =>
          if start + i ≤ x ∧ x < start + i + n then buf (x - start) else d.mem x })
  | 0, i, d, start, buf, hw => by
    rw [writeFrom]
    refine congrArg _ ?_
    cases d with
    | mk m r w =>
      refine congrArg (fun f => EcDev.mk f r w) ?_
      funext x
      exact (if_neg (by omega)).symm
  | n + 1, i, d, start, buf, hw => by
    have hstep : writeFrom start buf d i (n + 1) =
        writeFrom start buf { d with mem := Function.update d.mem (start + i) (buf i) }
          (i + 1) n := by
      rw [writeFrom, show ecWrite d (start + i) (buf i) =
        some { d with mem := Function.update d.mem (start + i) (buf i) } from by
          rw [ecWrite, if_pos (hw _)]]
    rw [hstep, writeFrom_ok n (i + 1)
      { d with mem := Function.update d.mem (start + i) (buf i) } start buf hw]
    refine congrArg _ ?_
    cases d with
    | mk m r w =>
      refine congrArg (fun f => EcDev.mk f r w) ?_
      funext x
      simp only [Function.update_apply]
      by_cases h1 : start + (i + 1) ≤ x ∧ x < start + (i + 1) + n
      · rw [if_pos h1, if_pos (by omega)]
      · rw [if_neg h1]
        by_cases h2 : x = start + i
        · rw [if_pos h2, if_pos (by omega)]
          refine congrArg buf ?_
          omega
        · rw [if_neg h2, if_neg (by omega)]

theorem readInto_ok :
    ∀ (n i : Nat) (buf : Nat → Nat) (d : EcDev) (start : Nat),
      (∀ a, d.readOk a = true) →
      readInto d start buf i n =
        (true, fun k => if i ≤ k ∧ k < i + n then d.mem (start + k) else buf k)
  | 0, i, buf, d, start, hr => by
    rw [readInto]
    refine congrArg _ ?_
    funext k
    exact (if_neg (by omega)).symm
  | n + 1, i, buf, d, start, hr => by
    have hstep : readInto d start buf i (n + 1) =
        readInto d start (Function.update buf i (d.mem (start + i))) (i + 1) n := by
      rw [readInto, show ecRead d (start + i) = some (d.mem (start + i)) from by
        rw [ecRead, if_pos (hr _)]]
    rw [hstep, readInto_ok n (i + 1) _ d start hr]
    refine congrArg _ ?_
    funext k
    simp only [Function.update_apply]
    by_cases h1 : i + 1 ≤ k ∧ k < i + 1 + n
    · rw [if_pos h1, if_pos (by omega)]
    · rw [if_neg h1]
      by_cases h2 : k = i
      · rw [if_pos h2, if_pos (by omega)]
        refine congrArg d.mem ?_
        omega
      · rw [if_neg h2, if_neg (by omega)]

theorem pushEcCurve_ok {c : FanCurve} {d : EcDev} {sb tb : Nat → Nat}
    (hc : isCurveAllowed c = true) (hw : ∀ a, d.writeOk a = true) :
    pushEcCurve c d sb tb = (0, { d with mem := pushedMem c d.mem sb tb }) := by
  have h1 := writeFrom_ok c.entries 0 d c.speedStart sb hw
  simp only [Nat.add_zero] at h1
  have h2 := writeFrom_ok (c.entries - 1) 0
    { d with mem := fun x =>
        if c.speedStart ≤ x ∧ x < c.speedStart + c.entries then sb (x - c.speedStart)
        else d.mem x } c.tempStart tb hw
  simp only [Nat.add_zero] at h2
  rw [pushEcCurve, if_neg (by simp [hc])]
  simp only [h1, h2, Bool.true_eq_false, if_false, Prod.mk.injEq]
  exact ⟨trivial, rfl⟩

theorem syncEcCurve_ok {c : FanCurve} {d : EcDev} {sb tb : Nat → Nat}
    (hc : isCurveAllowed c = true) (hr : ∀ a, d.readOk a = true) :
    syncEcCurve c d sb tb =
      (0, pulled d.mem c.speedStart c.entries sb,
        pulled d.mem c.tempStart (c.entries - 1) tb) := by
  have h1 := readInto_ok c.entries 0 sb d c.speedStart hr
  simp only [Nat.add_zero, Nat.zero_le, Nat.zero_add, true_and] at h1
  have h2 := readInto_ok (c.entries - 1) 0 tb d c.tempStart hr
  simp only [Nat.add_zero, Nat.zero_le, Nat.zero_add, true_and] at h2
  rw [syncEcCurve, if_neg (by simp [hc])]
  simp only [h1, h2, Bool.true_eq_false, if_false, Prod.mk.injEq]
  exact ⟨trivial, rfl, rfl⟩

theorem pushedMem_out {c : FanCurve} {m sb tb : Nat → Nat} {x : Nat}
    (ht : ¬(c.tempStart ≤ x ∧ x < c.tempStart + (c.entries - 1)))
    (hs : ¬(c.speedStart ≤ x ∧ x < c.speedStart + c.entries)) :
    pushedMem c m sb tb x = m x := by
  unfold pushedMem
  rw [if_neg ht, if_neg hs]

theorem pushedMem_speed {c : FanCurve} {m sb tb : Nat → Nat} {k : Nat}
    (hk : k < c.entries)
    (ht : ¬(c.tempStart ≤ c.speedStart + k ∧
      c.speedStart + k < c.tempStart + (c.entries - 1))) :
    pushedMem c m sb tb (c.speedStart + k) = sb k := by
  unfold pushedMem
  rw [if_neg ht, if_pos (by omega)]
  refine congrArg sb ?_
  omega

theorem pushedMem_temp {c : FanCurve} {m sb tb : Nat → Nat} {k : Nat}
    (hk : k < c.entries - 1) :
    pushedMem c m sb tb (c.tempStart + k) = tb k := by
  unfold pushedMem
  rw [if_pos (by omega)]
  refine congrArg tb ?_
  omega

/-- Two address ranges do not overlap. -/
def RngDisj (a n b m : Nat) : Prop := a + n ≤ b ∨ b + m ≤ a

/-- An address lies outside a range. -/
def OutsideRng (x a n : Nat) : Prop := x < a ∨ a + n ≤ x

/-- The register layout constraints of a configuration: the four curve
ranges are pairwise disjoint and the fan-mode register lies outside all
of them (true of `CONF401`, see the witness). -/
def saneLayout (cfg : Conf) : Prop :=
  RngDisj cfg.cpuCurve.speedStart cfg.cpuCurve.entries
    cfg.cpuCurve.tempStart (cfg.cpuCurve.entries - 1) ∧
  RngDisj cfg.gpuCurve.speedStart cfg.gpuCurve.entries
    cfg.gpuCurve.tempStart (cfg.gpuCurve.entries - 1) ∧
  RngDisj cfg.cpuCurve.speedStart cfg.cpuCurve.entries
    cfg.gpuCurve.speedStart cfg.gpuCurve.entries ∧
  RngDisj cfg.cpuCurve.speedStart cfg.cpuCurve.entries
    cfg.gpuCurve.tempStart (cfg.gpuCurve.entries - 1) ∧
  RngDisj cfg.cpuCurve.tempStart (cfg.cpuCurve.entries - 1)
    cfg.gpuCurve.speedStart cfg.gpuCurve.entries ∧
  RngDisj cfg.cpuCurve.tempStart (cfg.cpuCurve.entries - 1)
    cfg.gpuCurve.tempStart (cfg.gpuCurve.entries - 1) ∧
  OutsideRng cfg.fanModeAddr cfg.cpuCurve.speedStart cfg.cpuCurve.entries ∧
  OutsideRng cfg.fanModeAddr cfg.cpuCurve.tempStart (cfg.cpuCurve.entries - 1) ∧
  OutsideRng cfg.fanModeAddr cfg.gpuCurve.speedStart cfg.gpuCurve.entries ∧
  OutsideRng cfg.fanModeAddr cfg.gpuCurve.tempStart (cfg.gpuCurve.entries - 1)

theorem fanModeGet_congr {cfg : Conf} {d d' : EcDev}
    (hm : d'.mem cfg.fanModeAddr = d.mem cfg.fanModeAddr)
    (hr : d'.readOk cfg.fanModeAddr = d.readOk cfg.fanModeAddr) :
    fanModeGet cfg d' = fanModeGet cfg d := by
  unfold fanModeGet ecRead
  rw [hm, hr]

/-- The entering-manual transition on a fully writable device:
unconditional pushes of the active buffers, CPU then GPU. -/
theorem curveFanModeChange_enter {cfg : Conf} {st : EngineSt}
    (hs1 : cfg.cpuCurve.applyStrategy = STRATEGY_RESET_ON_AUTO)
    (hs2 : cfg.gpuCurve.applyStrategy = STRATEGY_RESET_ON_AUTO)
    (ha1 : isCurveAllowed cfg.cpuCurve = true) (ha2 : isCurveAllowed cfg.gpuCurve = true)
    (hw : ∀ a, st.dev.writeOk a = true) :
    curveFanModeChange cfg FM_ADVANCED st =
      (0, { st with dev := { st.dev with mem :=
        (pushedMem cfg.gpuCurve (pushedMem cfg.cpuCurve st.dev.mem st.cpu.speed st.cpu.temp)
          st.gpu.speed st.gpu.temp) } }) := by
  have e1 : pushEcCurve cfg.cpuCurve st.dev st.cpu.speed st.cpu.temp =
      (0, { st.dev with mem := pushedMem cfg.cpuCurve st.dev.mem st.cpu.speed st.cpu.temp }) :=
    pushEcCurve_ok ha1 hw
  have e2 : pushEcCurve cfg.gpuCurve
      { st.dev with mem := pushedMem cfg.cpuCurve st.dev.mem st.cpu.speed st.cpu.temp }
      st.gpu.speed st.gpu.temp =
      (0, { st.dev with mem :=
        (pushedMem cfg.gpuCurve (pushedMem cfg.cpuCurve st.dev.mem st.cpu.speed st.cpu.temp)
          st.gpu.speed st.gpu.temp) }) :=
    pushEcCurve_ok ha2 hw
  rw [curveFanModeChange, if_pos rfl]
  simp [enterManualCurve, hs1, hs2, ha1, ha2, e1, e2]

/-- The leaving-manual transition while the fan-mode register still
reads back as the advanced mode (the register is only written *after*
`curve_fan_mode_change`): the safe pull fills the active buffers, then
the default buffers are pushed, CPU then GPU. -/
theorem curveFanModeChange_leave {cfg : Conf} {st : EngineSt} {mode : String}
    (hmode : ¬(mode = FM_ADVANCED))
    (hs1 : cfg.cpuCurve.applyStrategy = STRATEGY_RESET_ON_AUTO)
    (hs2 : cfg.gpuCurve.applyStrategy = STRATEGY_RESET_ON_AUTO)
    (ha1 : isCurveAllowed cfg.cpuCurve = true) (ha2 : isCurveAllowed cfg.gpuCurve = true)
    (hr : ∀ a, st.dev.readOk a = true) (hw : ∀ a, st.dev.writeOk a = true)
    (hgate : fanModeGet cfg st.dev = .ok FM_ADVANCED)
    (hm1 : OutsideRng cfg.fanModeAddr cfg.cpuCurve.speedStart cfg.cpuCurve.entries)
    (hm2 : OutsideRng cfg.fanModeAddr cfg.cpuCurve.tempStart (cfg.cpuCurve.entries - 1)) :
    curveFanModeChange cfg mode st =
      (0, { st with
        dev := { st.dev with mem :=
          (pushedMem cfg.gpuCurve
            (pushedMem cfg.cpuCurve st.dev.mem st.cpu.speedDef st.cpu.tempDef)
            st.gpu.speedDef st.gpu.tempDef) },
        cpu := { st.cpu with
          speed :=
            (pulled st.dev.mem cfg.cpuCurve.speedStart cfg.cpuCurve.entries st.cpu.speed),
          temp :=
            (pulled st.dev.mem cfg.cpuCurve.tempStart (cfg.cpuCurve.entries - 1) st.cpu.temp) },
        gpu := { st.gpu with
          speed := (pulled (pushedMem cfg.cpuCurve st.dev.mem st.cpu.speedDef st.cpu.tempDef)
            cfg.gpuCurve.speedStart cfg.gpuCurve.entries st.gpu.speed),
          temp := (pulled (pushedMem cfg.cpuCurve st.dev.mem st.cpu.speedDef st.cpu.tempDef)
            cfg.gpuCurve.tempStart (cfg.gpuCurve.entries - 1) st.gpu.temp) } }) := by
  have hsync1 : syncEcCurveSafe cfg cfg.cpuCurve st.dev st.cpu.speed st.cpu.temp =
      (0, pulled st.dev.mem cfg.cpuCurve.speedStart cfg.cpuCurve.entries st.cpu.speed,
        pulled st.dev.mem cfg.cpuCurve.tempStart (cfg.cpuCurve.entries - 1) st.cpu.temp) := by
    rw [syncEcCurveSafe, if_pos hs1, hgate]
    show (if FM_ADVANCED = FM_ADVANCED then
        syncEcCurve cfg.cpuCurve st.dev st.cpu.speed st.cpu.temp
      else (0, st.cpu.speed, st.cpu.temp)) = _
    rw [if_pos rfl]
    exact syncEcCurve_ok ha1 hr
  have epush1 : pushEcCurve cfg.cpuCurve st.dev st.cpu.speedDef st.cpu.tempDef =
      (0, { st.dev with mem :=
        (pushedMem cfg.cpuCurve st.dev.mem st.cpu.speedDef st.cpu.tempDef) }) :=
    pushEcCurve_ok ha1 hw
  have hgate2 : fanModeGet cfg
      { st.dev with mem := pushedMem cfg.cpuCurve st.dev.mem st.cpu.speedDef st.cpu.tempDef } =
      FanModeRes.ok FM_ADVANCED := by
    have hcong : fanModeGet cfg
        { st.dev with mem := pushedMem cfg.cpuCurve st.dev.mem st.cpu.speedDef st.cpu.tempDef } =
        fanModeGet cfg st.dev :=
      fanModeGet_congr
        (pushedMem_out (by unfold OutsideRng at hm2; omega) (by unfold OutsideRng at hm1; omega))
        rfl
    rw [hcong, hgate]
  have hsync2 : syncEcCurveSafe cfg cfg.gpuCurve
      { st.dev with mem := pushedMem cfg.cpuCurve st.dev.mem st.cpu.speedDef st.cpu.tempDef }
      st.gpu.speed st.gpu.temp =
      (0, pulled (pushedMem cfg.cpuCurve st.dev.mem st.cpu.speedDef st.cpu.tempDef)
          cfg.gpuCurve.speedStart cfg.gpuCurve.entries st.gpu.speed,
        pulled (pushedMem cfg.cpuCurve st.dev.mem st.cpu.speedDef st.cpu.tempDef)
          cfg.gpuCurve.tempStart (cfg.gpuCurve.entries - 1) st.gpu.temp) := by
    rw [syncEcCurveSafe, if_pos hs2, hgate2]
    show (if FM_ADVANCED = FM_ADVANCED then
        syncEcCurve cfg.gpuCurve
          { st.dev with mem :=
            (pushedMem cfg.cpuCurve st.dev.mem st.cpu.speedDef st.cpu.tempDef) }
          st.gpu.speed st.gpu.temp
      else (0, st.gpu.speed, st.gpu.temp)) = _
    rw [if_pos rfl]
    exact syncEcCurve_ok ha2 hr
  have epush2 : pushEcCurve cfg.gpuCurve
      { st.dev with mem := pushedMem cfg.cpuCurve st.dev.mem st.cpu.speedDef st.cpu.tempDef }
      st.gpu.speedDef st.gpu.tempDef =
      (0, { st.dev with mem :=
        (pushedMem cfg.gpuCurve
          (pushedMem cfg.cpuCurve st.dev.mem st.cpu.speedDef st.cpu.tempDef)
          st.gpu.speedDef st.gpu.tempDef) }) :=
    pushEcCurve_ok ha2 hw
  rw [curveFanModeChange, if_neg hmode]
  simp [leaveManualCurve, hs1, hs2, ha1, ha2, hsync1, hsync2, epush1, epush2]

/-- A successful `set_fan_mode`: the curve transition followed by the
register write. -/
theorem setFanMode_eq {cfg : Conf} {mode : String} {st st' : EngineSt} {v : Nat}
    (hfind : setFanModeFind cfg.fanModes mode = some v)
    (hcurve : curveFanModeChange cfg mode st = (0, st'))
    (hw : st'.dev.writeOk cfg.fanModeAddr = true) :
    setFanMode cfg mode st =
      (0, { st' with dev := { st'.dev with
        mem := (Function.update st'.dev.mem cfg.fanModeAddr v) } }) := by
  rw [setFanMode, hfind]
  simp [hcurve, ecWrite, hw]

/-! ## Claim C1 -/

/-- C1: for a configuration whose curves use the `ResetOnAuto` strategy
and are allowed, on a fully available device, the transition sequence
enter-Manual, enter-Auto, enter-Manual performed by `set_fan_mode`
(each of which runs `curve_fan_mode_change` **before** writing the
fan-mode register) succeeds, leaves the active buffers equal to their
initial contents `C`, and ends with the EC curve ranges holding `C`:
entering manual pushes the active buffers unconditionally, and leaving
manual pulls into the active buffers (the gate still sees the advanced
mode) and then pushes the default buffers. -/
theorem c1_reset_on_auto_roundtrip {cfg : Conf} {st : EngineSt} {va vu : Nat}
    (hs1 : cfg.cpuCurve.applyStrategy = STRATEGY_RESET_ON_AUTO)
    (hs2 : cfg.gpuCurve.applyStrategy = STRATEGY_RESET_ON_AUTO)
    (ha1 : isCurveAllowed cfg.cpuCurve = true)
    (ha2 : isCurveAllowed cfg.gpuCurve = true)
    (hr : ∀ a, st.dev.readOk a = true) (hw : ∀ a, st.dev.writeOk a = true)
    (hfa : setFanModeFind cfg.fanModes FM_ADVANCED = some va)
    (hfu : setFanModeFind cfg.fanModes FM_AUTO = some vu)
    (hla : fanModeLookup cfg.fanModes va = some FM_ADVANCED)
    (hlay : saneLayout cfg) :
    ∀ r1 st1 r2 st2 r3 st3,
      setFanMode cfg FM_ADVANCED st = (r1, st1) →
      setFanMode cfg FM_AUTO st1 = (r2, st2) →
      setFanMode cfg FM_ADVANCED st2 = (r3, st3) →
      r1 = 0 ∧ r2 = 0 ∧ r3 = 0 ∧
      st3.cpu.speed = st.cpu.speed ∧ st3.cpu.temp = st.cpu.temp ∧
      st3.gpu.speed = st.gpu.speed ∧ st3.gpu.temp = st.gpu.temp ∧
      (∀ i < cfg.cpuCurve.entries,
        st3.dev.mem (cfg.cpuCurve.speedStart + i) = st.cpu.speed i) ∧
      (∀ i < cfg.cpuCurve.entries - 1,
        st3.dev.mem (cfg.cpuCurve.tempStart + i) = st.cpu.temp i) ∧
      (∀ i < cfg.gpuCurve.entries,
        st3.dev.mem (cfg.gpuCurve.speedStart + i) = st.gpu.speed i) ∧
      (∀ i < cfg.gpuCurve.entries - 1,
        st3.dev.mem (cfg.gpuCurve.tempStart + i) = st.gpu.temp i) := by
  obtain ⟨dST, dGST, dSS, dSGT, dTS, dTT, mS, mT, mGS, mGT⟩ := hlay
  simp only [RngDisj, OutsideRng] at dST dGST dSS dSGT dTS dTT mS mT mGS mGT
  intro r1 st1 r2 st2 r3 st3 h1 h2 h3
  -- step 1: enter manual
  have hc1 := curveFanModeChange_enter hs1 hs2 ha1 ha2 hw
  have hsm1 := setFanMode_eq hfa hc1 (hw cfg.fanModeAddr)
  rw [hsm1, Prod.mk.injEq] at h1
  obtain ⟨hr1, hst1⟩ := h1
  have e1r : st1.dev.readOk = st.dev.readOk := by subst hst1; rfl
  have e1w : st1.dev.writeOk = st.dev.writeOk := by subst hst1; rfl
  have e1m : st1.dev.mem = Function.update
      (pushedMem cfg.gpuCurve
        (pushedMem cfg.cpuCurve st.dev.mem st.cpu.speed st.cpu.temp)
        st.gpu.speed st.gpu.temp) cfg.fanModeAddr va := by subst hst1; rfl
  have e1c : st1.cpu = st.cpu := by subst hst1; rfl
  have e1g : st1.gpu = st.gpu := by subst hst1; rfl
  have hr1d : ∀ a, st1.dev.readOk a = true := by rw [e1r]; exact hr
  have hw1d : ∀ a, st1.dev.writeOk a = true := by rw [e1w]; exact hw
  -- step 2: enter auto; the register currently holds the advanced value
  have hecr : ecRead st1.dev cfg.fanModeAddr = some va := by
    rw [ecRead, if_pos (hr1d _), e1m, Function.update_same]
  have hgate : fanModeGet cfg st1.dev = FanModeRes.ok FM_ADVANCED := by
    unfold fanModeGet
    rw [hecr]
    show (match fanModeLookup cfg.fanModes va with
      | some nm => FanModeRes.ok nm
      | none => FanModeRes.err
          (if va = 0 then ((ADDR_UNSUPP : Nat) : Int) else (va : Int)))
      = FanModeRes.ok FM_ADVANCED
    rw [hla]
  have hc2 := curveFanModeChange_leave
    (show ¬(FM_AUTO = FM_ADVANCED) by decide) hs1 hs2 ha1 ha2
    hr1d hw1d hgate (Or.imp id id mS) (Or.imp id id mT)
  have hsm2 := setFanMode_eq hfu hc2 (hw1d cfg.fanModeAddr)
  rw [hsm2, Prod.mk.injEq] at h2
  obtain ⟨hr2, hst2⟩ := h2
  have e2r : st2.dev.readOk = st1.dev.readOk := by subst hst2; rfl
  have e2w : st2.dev.writeOk = st1.dev.writeOk := by subst hst2; rfl
  have e2cs : st2.cpu.speed =
      pulled st1.dev.mem cfg.cpuCurve.speedStart cfg.cpuCurve.entries st1.cpu.speed := by
    subst hst2; rfl
  have e2ct : st2.cpu.temp =
      pulled st1.dev.mem cfg.cpuCurve.tempStart (cfg.cpuCurve.entries - 1)
        st1.cpu.temp := by
    subst hst2; rfl
  have e2gs : st2.gpu.speed =
      pulled (pushedMem cfg.cpuCurve st1.dev.mem st1.cpu.speedDef st1.cpu.tempDef)
        cfg.gpuCurve.speedStart cfg.gpuCurve.entries st1.gpu.speed := by
    subst hst2; rfl
  have e2gt : st2.gpu.temp =
      pulled (pushedMem cfg.cpuCurve st1.dev.mem st1.cpu.speedDef st1.cpu.tempDef)
        cfg.gpuCurve.tempStart (cfg.gpuCurve.entries - 1) st1.gpu.temp := by
    subst hst2; rfl
  have hw2d : ∀ a, st2.dev.writeOk a = true := by rw [e2w]; exact hw1d
  -- the pull of step 2 reproduced the original active buffers
  have hbc1 : st2.cpu.speed = st.cpu.speed := by
    rw [e2cs, e1c, e1m]
    funext k
    unfold pulled
    by_cases hk : k < cfg.cpuCurve.entries
    · rw [if_pos hk, Function.update_apply, if_neg (by omega),
        pushedMem_out (by omega) (by omega), pushedMem_speed hk (by omega)]
    · rw [if_neg hk]
  have hbc2 : st2.cpu.temp = st.cpu.temp := by
    rw [e2ct, e1c, e1m]
    funext k
    unfold pulled
    by_cases hk : k < cfg.cpuCurve.entries - 1
    · rw [if_pos hk, Function.update_apply, if_neg (by omega),
        pushedMem_out (by omega) (by omega), pushedMem_temp hk]
    · rw [if_neg hk]
  have hbg1 : st2.gpu.speed = st.gpu.speed := by
    rw [e2gs, e1g, e1m]
    funext k
    unfold pulled
    by_cases hk : k < cfg.gpuCurve.entries
    · rw [if_pos hk, pushedMem_out (by omega) (by omega),
        Function.update_apply, if_neg (by omega), pushedMem_speed hk (by omega)]
    · rw [if_neg hk]
  have hbg2 : st2.gpu.temp = st.gpu.temp := by
    rw [e2gt, e1g, e1m]
    funext k
    unfold pulled
    by_cases hk : k < cfg.gpuCurve.entries - 1
    · rw [if_pos hk, pushedMem_out (by omega) (by omega),
        Function.update_apply, if_neg (by omega), pushedMem_temp hk]
    · rw [if_neg hk]
  -- step 3: enter manual again, pushing the preserved active buffers
  have hc3 := curveFanModeChange_enter hs1 hs2 ha1 ha2 hw2d
  have hsm3 := setFanMode_eq hfa hc3 (hw2d cfg.fanModeAddr)
  rw [hsm3, Prod.mk.injEq] at h3
  obtain ⟨hr3, hst3⟩ := h3
  have e3m : st3.dev.mem = Function.update
      (pushedMem cfg.gpuCurve
        (pushedMem cfg.cpuCurve st2.dev.mem st2.cpu.speed st2.cpu.temp)
        st2.gpu.speed st2.gpu.temp) cfg.fanModeAddr va := by subst hst3; rfl
  have e3cs : st3.cpu.speed = st2.cpu.speed := by subst hst3; rfl
  have e3ct : st3.cpu.temp = st2.cpu.temp := by subst hst3; rfl
  have e3gs : st3.gpu.speed = st2.gpu.speed := by subst hst3; rfl
  have e3gt : st3.gpu.temp = st2.gpu.temp := by subst hst3; rfl
  refine ⟨hr1.symm, hr2.symm, hr3.symm,
    by rw [e3cs, hbc1], by rw [e3ct, hbc2], by rw [e3gs, hbg1], by rw [e3gt, hbg2],
    ?_, ?_, ?_, ?_⟩
  · intro i hi
    rw [e3m, Function.update_apply, if_neg (by omega),
      pushedMem_out (by omega) (by omega), pushedMem_speed hi (by omega), hbc1]
  · intro i hi
    rw [e3m, Function.update_apply, if_neg (by omega),
      pushedMem_out (by omega) (by omega), pushedMem_temp hi, hbc2]
  · intro i hi
    rw [e3m, Function.update_apply, if_neg (by omega),
      pushedMem_speed hi (by omega), hbg1]
  · intro i hi
    rw [e3m, Function.update_apply, if_neg (by omega), pushedMem_temp hi, hbg2]

/-- A concrete initial state for the C1 round trip: distinct custom
curve contents, defaults different from them, fully available EC. -/
def c1St : EngineSt :=
  { dev := { mem := fun _ => 0, readOk := fun _ => true, writeOk := fun _ => true }
    cpu := { speed := fun i => 60 + i, temp := fun i => 40 + i
             speedDef := fun _ => 1, tempDef := fun _ => 2 }
    gpu := { speed := fun i => 70 + i, temp := fun i => 45 + i
             speedDef := fun _ => 3, tempDef := fun _ => 4 }
    virt0 := 0, virt1 := 0 }

def c1St1 : EngineSt := (setFanMode conf401 FM_ADVANCED c1St).2

def c1St2 : EngineSt := (setFanMode conf401 FM_AUTO c1St1).2

def c1St3 : EngineSt := (setFanMode conf401 FM_ADVANCED c1St2).2

/-- C1 witness: the round trip on `CONF401` from a fully available
device, with all hypotheses discharged concretely. -/
theorem c1_reset_on_auto_roundtrip_witness :
    (setFanMode conf401 FM_ADVANCED c1St).1 = 0 ∧
    (setFanMode conf401 FM_AUTO c1St1).1 = 0 ∧
    (setFanMode conf401 FM_ADVANCED c1St2).1 = 0 ∧
    c1St3.cpu.speed = c1St.cpu.speed ∧ c1St3.cpu.temp = c1St.cpu.temp ∧
    c1St3.gpu.speed = c1St.gpu.speed ∧ c1St3.gpu.temp = c1St.gpu.temp ∧
    (∀ i < conf401.cpuCurve.entries,
      c1St3.dev.mem (conf401.cpuCurve.speedStart + i) = c1St.cpu.speed i) ∧
    (∀ i < conf401.cpuCurve.entries - 1,
      c1St3.dev.mem (conf401.cpuCurve.tempStart + i) = c1St.cpu.temp i) ∧
    (∀ i < conf401.gpuCurve.entries,
      c1St3.dev.mem (conf401.gpuCurve.speedStart + i) = c1St.gpu.speed i) ∧
    (∀ i < conf401.gpuCurve.entries - 1,
      c1St3.dev.mem (conf401.gpuCurve.tempStart + i) = c1St.gpu.temp i) :=
  c1_reset_on_auto_roundtrip
    (show conf401.cpuCurve.applyStrategy = STRATEGY_RESET_ON_AUTO from rfl)
    rfl (by decide) (by decide) (fun _ => rfl) (fun _ => rfl)
    rfl rfl rfl (by unfold saneLayout RngDisj OutsideRng; decide)
    ((setFanMode conf401 FM_ADVANCED c1St).1) c1St1
    ((setFanMode conf401 FM_AUTO c1St1).1) c1St2
    ((setFanMode conf401 FM_ADVANCED c1St2).1) c1St3
    rfl rfl rfl

/-! ## Claim C10 -/

/-- C10: `fan_mode_is_available` iterates all five `fan_modes` slots
comparing `strcmp(supported.fan_modes[i].name, mode)` with no NULL
guard, although its sibling scan in `set_fan_mode` does guard
(`modes[i].name && !strcmp(...)`).  On `CONF401`, whose last two slots
are zero-initialized sentinels (`name == NULL`), asking for a mode that
is not in the populated prefix — e.g. `"basic"` — walks past the
populated entries into a NULL `name` and calls `strcmp(NULL, "basic")`,
undefined behaviour (modelled as `none`); the same query through the
guarded `set_fan_mode` scan terminates normally, and a populated mode
such as `"auto"` is still answered before the sentinel is reached. -/
theorem c10_is_available_null_deref :
    fanModeIsAvailable conf401.fanModes FM_BASIC = none ∧
    fanModeIsAvailable conf401.fanModes FM_AUTO = some true ∧
    setFanModeFind conf401.fanModes FM_BASIC = none := by
  refine ⟨rfl, rfl, rfl⟩

/-! ## Status-only facts about the leaving-manual transition -/

/-- `leave_manual` per fan: whatever `sync_ec_curve_safe` returned, the
status reported is that of the unconditional default push alone, so it
is `0` whenever every write succeeds. -/
theorem leaveManualCurve_ok (cfg : Conf) (c : FanCurve) (d : EcDev) (b : FanBufs)
    (hw : ∀ a, d.writeOk a = true) :
    (leaveManualCurve cfg c d b).1 = 0 ∧
    (leaveManualCurve cfg c d b).2.1.writeOk = d.writeOk ∧
    (leaveManualCurve cfg c d b).2.1.readOk = d.readOk := by
  by_cases hg : c.applyStrategy = STRATEGY_RESET_ON_AUTO ∧ isCurveAllowed c = true
  · rw [leaveManualCurve, if_pos hg]
    simp [pushEcCurve_ok hg.2 hw]
  · rw [leaveManualCurve, if_neg hg]
    exact ⟨rfl, rfl, rfl⟩

/-- `curve_fan_mode_change` on any non-advanced target mode reports
success whenever every write succeeds, independent of read failures,
and touches neither the availability functions nor the `virt` cache. -/
theorem curveFanModeChange_noadv_ok (cfg : Conf) (st : EngineSt) (mode : String)
    (hmode : ¬(mode = FM_ADVANCED)) (hw : ∀ a, st.dev.writeOk a = true) :
    (curveFanModeChange cfg mode st).1 = 0 ∧
    (curveFanModeChange cfg mode st).2.dev.writeOk = st.dev.writeOk ∧
    (curveFanModeChange cfg mode st).2.dev.readOk = st.dev.readOk ∧
    (curveFanModeChange cfg mode st).2.virt0 = st.virt0 ∧
    (curveFanModeChange cfg mode st).2.virt1 = st.virt1 := by
  obtain ⟨h10, h1w, h1r⟩ := leaveManualCurve_ok cfg cfg.cpuCurve st.dev st.cpu hw
  have hw1 : ∀ a,
      (leaveManualCurve cfg cfg.cpuCurve st.dev st.cpu).2.1.writeOk a = true := by
    rw [h1w]; exact hw
  obtain ⟨h20, h2w, h2r⟩ := leaveManualCurve_ok cfg cfg.gpuCurve
    (leaveManualCurve cfg cfg.cpuCurve st.dev st.cpu).2.1 st.gpu hw1
  have hlt : ¬((0 : Int) < 0) := by decide
  rw [curveFanModeChange, if_neg hmode]
  simp only [h10, h20, if_neg hlt]
  refine ⟨by trivial, ?_, ?_, by trivial, by trivial⟩
  · show (leaveManualCurve cfg cfg.gpuCurve
      (leaveManualCurve cfg cfg.cpuCurve st.dev st.cpu).2.1 st.gpu).2.1.writeOk
      = st.dev.writeOk
    rw [h2w, h1w]
  · show (leaveManualCurve cfg cfg.gpuCurve
      (leaveManualCurve cfg cfg.cpuCurve st.dev st.cpu).2.1 st.gpu).2.1.readOk
      = st.dev.readOk
    rw [h2r, h1r]

/-! ## Claim C8 -/

/-- A device whose EC reports the advanced fan mode (`0xd4 ↦ 0x80`),
where reading the first CPU curve speed cell `0x72` fails and every
write succeeds. -/
def c8dev : EcDev :=
  { mem := fun a => if a = 0xd4 then 0x80 else 0
    readOk := fun a => if a = 0x72 then false else true
    writeOk := fun _ => true }

def c8st : EngineSt :=
  { dev := c8dev
    cpu := { speed := fun _ => 5, temp := fun _ => 6
             speedDef := fun _ => 7, tempDef := fun _ => 8 }
    gpu := { speed := fun _ => 5, temp := fun _ => 6
             speedDef := fun _ => 7, tempDef := fun _ => 8 }
    virt0 := 1, virt1 := 1 }

/-- C8 counterexample: on `CONF401` with the advanced mode active in
the EC register, `sync_ec_curve_safe` does **not** skip (the gate sees
the advanced mode) and reports `-EIO` because the first curve read
fails; yet `curve_fan_mode_change` leaving manual returns `0`, because
msi-ec.c:4383 assigns the sync status to a variable that is never
tested: the I/O failure is silently discarded, and this path is not
the designed apply-strategy skip. -/
theorem c8_counterexample :
    (syncEcCurveSafe conf401 conf401.cpuCurve c8st.dev
      c8st.cpu.speed c8st.cpu.temp).1 = EIO ∧
    (curveFanModeChange conf401 FM_AUTO c8st).1 = 0 := by
  refine ⟨by decide, by decide⟩

/-- C8 amended: `curve_fan_mode_change` on a non-advanced target
propagates exactly the **push** failures: it returns `0` whenever
every write succeeds, whatever the embedded `sync_ec_curve_safe`
returned (first conjunct: its status is discarded), and returns
`-EIO` as soon as the first default-push write fails (second
conjunct: push failures do reach the caller). -/
theorem c8_error_propagation (cfg : Conf) (st : EngineSt) (mode : String)
    (hmode : ¬(mode = FM_ADVANCED))
    (hs : cfg.cpuCurve.applyStrategy = STRATEGY_RESET_ON_AUTO)
    (ha : isCurveAllowed cfg.cpuCurve = true) :
    ((∀ a, st.dev.writeOk a = true) → (curveFanModeChange cfg mode st).1 = 0) ∧
    (st.dev.writeOk cfg.cpuCurve.speedStart = false →
      (curveFanModeChange cfg mode st).1 = EIO) := by
  refine ⟨fun hw => (curveFanModeChange_noadv_ok cfg st mode hmode hw).1, fun hwf => ?_⟩
  have he : cfg.cpuCurve.entries ≠ 0 := by
    intro h0
    rw [isCurveAllowed] at ha
    simp [h0] at ha
  obtain ⟨k, hk⟩ := Nat.exists_eq_succ_of_ne_zero he
  have hew : ecWrite st.dev (cfg.cpuCurve.speedStart + 0) (st.cpu.speedDef 0) = none := by
    rw [ecWrite, if_neg (by simp [Nat.add_zero, hwf])]
  have hwr : writeFrom cfg.cpuCurve.speedStart st.cpu.speedDef st.dev 0 (k + 1)
      = (false, st.dev) := by
    show (match ecWrite st.dev (cfg.cpuCurve.speedStart + 0) (st.cpu.speedDef 0) with
      | none => (false, st.dev)
      | some d' => writeFrom cfg.cpuCurve.speedStart st.cpu.speedDef d' (0 + 1) k)
      = (false, st.dev)
    rw [hew]
  have hpu : pushEcCurve cfg.cpuCurve st.dev st.cpu.speedDef st.cpu.tempDef
      = ( EIO, st.dev) := by
    rw [pushEcCurve, if_neg (by simp [ha]), hk]
    simp [hwr]
  have hlv : (leaveManualCurve cfg cfg.cpuCurve st.dev st.cpu).1 = EIO := by
    rw [leaveManualCurve, if_pos ⟨hs, ha⟩]
    simp [hpu]
  rw [curveFanModeChange, if_neg hmode]
  simp only [hlv, if_pos (show ( EIO : Int) < 0 by decide)]

/-- C8 witness: the amended propagation statement at `CONF401` on the
counterexample state (writes all succeed, the first curve read does
not). -/
theorem c8_error_propagation_witness :
    ((∀ a, c8st.dev.writeOk a = true) →
      (curveFanModeChange conf401 FM_AUTO c8st).1 = 0) ∧
    (c8st.dev.writeOk conf401.cpuCurve.speedStart = false →
      (curveFanModeChange conf401 FM_AUTO c8st).1 = EIO) :=
  c8_error_propagation conf401 c8st FM_AUTO (by decide) rfl (by decide)

/-! ## Claims C5, C9, C3 -/

/-- A generic engine state on a fully available device whose fan-mode
register reads `0x00` (the auto mode), so safe pushes are skipped. -/
def stW : EngineSt :=
  { dev := { mem := fun _ => 0, readOk := fun _ => true, writeOk := fun _ => true }
    cpu := { speed := fun _ => 10, temp := fun _ => 20
             speedDef := fun _ => 30, tempDef := fun _ => 40 }
    gpu := { speed := fun _ => 11, temp := fun _ => 21
             speedDef := fun _ => 31, tempDef := fun _ => 41 }
    virt0 := 1, virt1 := 1 }

/-- C5: whenever `read_curve` rejects the input — malformed grammar, a
value whose signed 32-bit image is ≥ 256, non-increasing or over-100
temperatures, or a speed over 150 all yield `none` — `curve_store`
returns `-EINVAL` with the state, in particular both fans' active
speed and temperature buffers, exactly as before the call: the decoded
values are copied into `fan_speed_buf`/`temperature_buf` only after
every validation check has passed, because `read_curve` parses and
validates into stack temporaries. -/
theorem c5_rejected_store_preserves_buffers (cfg : Conf) (fan : Nat) (st : EngineSt)
    (input : List Char)
    (h : readCurve cfg.cpuCurve.entries input = none) :
    curveStore cfg fan st input = (EINVAL, st) := by
  simp [curveStore, h]

/-- C5 witness: a short malformed input against `CONF401` (7 entries
need 13 integers) leaves the state untouched. -/
theorem c5_rejected_store_preserves_buffers_witness :
    readCurve conf401.cpuCurve.entries ("10 20 150\n".toList) = none ∧
    curveStore conf401 0 stW ("10 20 150\n".toList) = (EINVAL, stW) :=
  ⟨by decide, c5_rejected_store_preserves_buffers conf401 0 stW _ (by decide)⟩

/-- A hypothetical profile giving the two fans different entry counts
(3 for the CPU, 4 for the GPU); every profile currently in the
registry gives both fans the same count. -/
def cfgDiff : Conf :=
  { fanModeAddr := 0xd4
    fanModes := conf401.fanModes
    coolerBoostAddr := 0x98
    coolerBoostBit := 7
    cpuCurve := { speedStart := 0x72, tempStart := 0x6a, entries := 3
                  applyStrategy := STRATEGY_RESET_ON_AUTO, maxSpeed := 150 }
    gpuCurve := { speedStart := 0x8a, tempStart := 0x82, entries := 4
                  applyStrategy := STRATEGY_RESET_ON_AUTO, maxSpeed := 150 } }

/-- C9: `curve_store` (msi-ec.c:4204) passes
`conf.cpu.fan_curve.entries_count` to `read_curve` for the GPU channel
too, so the GPU store accepts/rejects by the CPU count: on a profile
with cpu=3/gpu=4 the GPU store rejects the 7-integer input its own
count calls for, and accepts a 5-integer input. -/
theorem c9_store_count_from_cpu_curve :
    (∀ (cfg : Conf) (st : EngineSt) (input : List Char),
      readCurve cfg.cpuCurve.entries input = none →
      curveStore cfg 1 st input = (EINVAL, st)) ∧
    cfgDiff.cpuCurve.entries = 3 ∧ cfgDiff.gpuCurve.entries = 4 ∧
    readCurve cfgDiff.gpuCurve.entries ("10 40 60 70 90 80 95".toList) ≠ none ∧
    curveStore cfgDiff 1 stW ("10 40 60 70 90 80 95".toList) = (EINVAL, stW) ∧
    readCurve cfgDiff.cpuCurve.entries ("10 40 60 70 90".toList) ≠ none ∧
    (curveStore cfgDiff 1 stW ("10 40 60 70 90".toList)).1 = 0 := by
  have hgen : ∀ (cfg : Conf) (st : EngineSt) (input : List Char),
      readCurve cfg.cpuCurve.entries input = none →
      curveStore cfg 1 st input = (EINVAL, st) :=
    fun cfg st input h => by simp [curveStore, h]
  exact ⟨hgen, by decide, by decide, by decide,
    hgen cfgDiff stW _ (by decide), by decide, by decide⟩

/-- The first `n` cells of a buffer as a list. -/
def listOf (f : Nat → Nat) (n : Nat) : List Nat := (List.range n).map f

/-- A state whose CPU buffers satisfy the curve invariant: speeds
10,20,…,70 and temperatures 30,40,…,80, on a fully available device
reading the auto mode. -/
def c3St : EngineSt :=
  { dev := { mem := fun _ => 0, readOk := fun _ => true, writeOk := fun _ => true }
    cpu := { speed := fun i => 10 + 10 * i, temp := fun i => 30 + 10 * i
             speedDef := fun _ => 0, tempDef := fun _ => 0 }
    gpu := { speed := fun i => 10 + 10 * i, temp := fun i => 30 + 10 * i
             speedDef := fun _ => 0, tempDef := fun _ => 0 }
    virt0 := 1, virt1 := 1 }

/-- C3 counterexample: starting from a state whose CPU buffers satisfy
the invariant, the per-point temperature store (`curve_attr_store`,
which bounds a temperature only by 100 and performs no monotonicity
check) succeeds while breaking the strictly-increasing invariant:
writing 90 into breakpoint 1 of a 30,40,50,60,70,80 curve. -/
theorem c3_counterexample :
    tempsOK 0 (listOf c3St.cpu.temp (conf401.cpuCurve.entries - 1)) = true ∧
    speedsOK (listOf c3St.cpu.speed conf401.cpuCurve.entries) = true ∧
    (curveAttrStore conf401 c3St 0 1 false 90).1 = 0 ∧
    tempsOK 0 (listOf ((curveAttrStore conf401 c3St 0 1 false 90).2.cpu.temp)
      (conf401.cpuCurve.entries - 1)) = false := by
  refine ⟨by decide, by decide, by decide, by decide⟩

/-- C3 amended: the invariant is guaranteed by the whole-curve store —
a successful `read_curve` yields strictly increasing temperatures at
most 100 and speeds at most 150, and `curve_store` installs exactly
those decoded values — but not by the per-point store. -/
theorem c3_whole_store_invariant (cfg : Conf) (st : EngineSt) (input : List Char)
    (sp te : List Nat) (hn : 1 ≤ cfg.cpuCurve.entries)
    (h : readCurve cfg.cpuCurve.entries input = some (sp, te)) :
    tempsOK 0 te = true ∧ speedsOK sp = true ∧
    (curveStore cfg 0 st input).2.cpu.speed = updSeq st.cpu.speed 0 sp ∧
    (curveStore cfg 0 st input).2.cpu.temp = updSeq st.cpu.temp 0 te := by
  obtain ⟨toks, _, hsp, hte, hT, hS⟩ := readCurve_sound hn h
  refine ⟨hT, hS, ?_, ?_⟩ <;> simp [curveStore, h, apply_ite, ite_self]

/-- C3 witness: a 13-integer whole-curve store on `CONF401` installing
exactly the decoded valid curve. -/
theorem c3_whole_store_invariant_witness :
    readCurve conf401.cpuCurve.entries
      ("10 30 20 40 30 50 40 60 50 70 60 80 70".toList)
      = some ([10, 20, 30, 40, 50, 60, 70], [30, 40, 50, 60, 70, 80]) ∧
    (tempsOK 0 [30, 40, 50, 60, 70, 80] = true ∧
     speedsOK [10, 20, 30, 40, 50, 60, 70] = true ∧
     (curveStore conf401 0 stW
        ("10 30 20 40 30 50 40 60 50 70 60 80 70".toList)).2.cpu.speed
       = updSeq stW.cpu.speed 0 [10, 20, 30, 40, 50, 60, 70] ∧
     (curveStore conf401 0 stW
        ("10 30 20 40 30 50 40 60 50 70 60 80 70".toList)).2.cpu.temp
       = updSeq stW.cpu.temp 0 [30, 40, 50, 60, 70, 80]) :=
  ⟨by decide, c3_whole_store_invariant conf401 stW _ _ _ (by decide) (by decide)⟩

/-! ## Claim C2 -/

/-- Clearing a bit leaves the bit clear. -/
theorem ldiff_land_self (s m : Nat) : Nat.ldiff s m &&& m = 0 := by
  apply Nat.eq_of_testBit_eq
  intro i
  rw [Nat.testBit_land, Nat.testBit_ldiff, Nat.zero_testBit]
  cases Nat.testBit s i <;> cases Nat.testBit m i <;> rfl

/-- The device after `set_cooler_boost(false)`. -/
def coolerCleared (cfg : Conf) (d : EcDev) : EcDev :=
  { d with mem := (Function.update d.mem cfg.coolerBoostAddr
      (Nat.ldiff (d.mem cfg.coolerBoostAddr) (1 <<< cfg.coolerBoostBit))) }

theorem setCoolerBoost_clear (cfg : Conf) (d : EcDev)
    (hb : ¬(cfg.coolerBoostAddr = ADDR_UNSUPP))
    (hra : d.readOk cfg.coolerBoostAddr = true)
    (hwa : d.writeOk cfg.coolerBoostAddr = true) :
    setCoolerBoost cfg false d = (0, coolerCleared cfg d) := by
  have her : ecRead d cfg.coolerBoostAddr = some (d.mem cfg.coolerBoostAddr) := by
    rw [ecRead, if_pos hra]
  have hsb : ecSetBit d cfg.coolerBoostAddr cfg.coolerBoostBit false
      = some (coolerCleared cfg d) := by
    unfold ecSetBit
    rw [her]
    show ecWrite d cfg.coolerBoostAddr
      (Nat.ldiff (d.mem cfg.coolerBoostAddr) (1 <<< cfg.coolerBoostBit))
      = some (coolerCleared cfg d)
    rw [ecWrite, if_pos hwa]
    rfl
  rw [setCoolerBoost, if_neg hb, hsb]

/-- A PWM-enable Auto write on channel 0 with channel 1 not cached
Auto: boost cleared, request cached, nothing else. -/
theorem hwmonWriteAuto_cached0 (cfg : Conf) (st : EngineSt)
    (hb : ¬(cfg.coolerBoostAddr = ADDR_UNSUPP))
    (hra : st.dev.readOk cfg.coolerBoostAddr = true)
    (hwa : st.dev.writeOk cfg.coolerBoostAddr = true)
    (hne : ¬(st.virt1 = PWM_ENABLE_AUTO)) :
    hwmonWritePwmEnable cfg st 0 PWM_ENABLE_AUTO =
      some (0, { st with
        dev := (coolerCleared cfg st.dev)
        virt0 := PWM_ENABLE_AUTO }) := by
  have hred : hwmonWritePwmEnable cfg st 0 PWM_ENABLE_AUTO =
      (let r := setCoolerBoost cfg false st.dev
       let st1 := { st with dev := r.2, virt0 := PWM_ENABLE_AUTO }
       if st1.virt1 = PWM_ENABLE_AUTO ∧ st1.virt0 = PWM_ENABLE_AUTO then
         match fanModeIsAvailable cfg.fanModes FM_AUTO with
         | none => none
         | some true => some (setFanMode cfg FM_AUTO st1)
         | some false => some (EINVAL, st1)
       else some (r.1, st1)) := rfl
  rw [hred]
  simp only [setCoolerBoost_clear cfg st.dev hb hra hwa]
  rw [if_neg (fun hc => hne hc.1)]

/-- A PWM-enable Auto write on channel 1 with channel 0 not cached
Auto: the symmetric fact. -/
theorem hwmonWriteAuto_cached1 (cfg : Conf) (st : EngineSt)
    (hb : ¬(cfg.coolerBoostAddr = ADDR_UNSUPP))
    (hra : st.dev.readOk cfg.coolerBoostAddr = true)
    (hwa : st.dev.writeOk cfg.coolerBoostAddr = true)
    (hne : ¬(st.virt0 = PWM_ENABLE_AUTO)) :
    hwmonWritePwmEnable cfg st 1 PWM_ENABLE_AUTO =
      some (0, { st with
        dev := (coolerCleared cfg st.dev)
        virt1 := PWM_ENABLE_AUTO }) := by
  have hred : hwmonWritePwmEnable cfg st 1 PWM_ENABLE_AUTO =
      (let r := setCoolerBoost cfg false st.dev
       let st1 := { st with dev := r.2, virt1 := PWM_ENABLE_AUTO }
       if st1.virt1 = PWM_ENABLE_AUTO ∧ st1.virt0 = PWM_ENABLE_AUTO then
         match fanModeIsAvailable cfg.fanModes FM_AUTO with
         | none => none
         | some true => some (setFanMode cfg FM_AUTO st1)
         | some false => some (EINVAL, st1)
       else some (r.1, st1)) := rfl
  rw [hred]
  simp only [setCoolerBoost_clear cfg st.dev hb hra hwa]
  rw [if_neg (fun hc => hne hc.2)]

/-- A PWM-enable Auto write on channel 0 with channel 1 already cached
Auto: the engine commits through `set_fan_mode`. -/
theorem hwmonWriteAuto_commit0 (cfg : Conf) (st : EngineSt)
    (hb : ¬(cfg.coolerBoostAddr = ADDR_UNSUPP))
    (hra : st.dev.readOk cfg.coolerBoostAddr = true)
    (hwa : st.dev.writeOk cfg.coolerBoostAddr = true)
    (hv1 : st.virt1 = PWM_ENABLE_AUTO)
    (hav : fanModeIsAvailable cfg.fanModes FM_AUTO = some true) :
    hwmonWritePwmEnable cfg st 0 PWM_ENABLE_AUTO =
      some (setFanMode cfg FM_AUTO
        { st with dev := coolerCleared cfg st.dev, virt0 := PWM_ENABLE_AUTO }) := by
  have hred : hwmonWritePwmEnable cfg st 0 PWM_ENABLE_AUTO =
      (let r := setCoolerBoost cfg false st.dev
       let st1 := { st with dev := r.2, virt0 := PWM_ENABLE_AUTO }
       if st1.virt1 = PWM_ENABLE_AUTO ∧ st1.virt0 = PWM_ENABLE_AUTO then
         match fanModeIsAvailable cfg.fanModes FM_AUTO with
         | none => none
         | some true => some (setFanMode cfg FM_AUTO st1)
         | some false => some (EINVAL, st1)
       else some (r.1, st1)) := rfl
  rw [hred]
  simp only [setCoolerBoost_clear cfg st.dev hb hra hwa]
  rw [if_pos ⟨hv1, by trivial⟩, hav]

/-- The symmetric commit on channel 1. -/
theorem hwmonWriteAuto_commit1 (cfg : Conf) (st : EngineSt)
    (hb : ¬(cfg.coolerBoostAddr = ADDR_UNSUPP))
    (hra : st.dev.readOk cfg.coolerBoostAddr = true)
    (hwa : st.dev.writeOk cfg.coolerBoostAddr = true)
    (hv0 : st.virt0 = PWM_ENABLE_AUTO)
    (hav : fanModeIsAvailable cfg.fanModes FM_AUTO = some true) :
    hwmonWritePwmEnable cfg st 1 PWM_ENABLE_AUTO =
      some (setFanMode cfg FM_AUTO
        { st with dev := coolerCleared cfg st.dev, virt1 := PWM_ENABLE_AUTO }) := by
  have hred : hwmonWritePwmEnable cfg st 1 PWM_ENABLE_AUTO =
      (let r := setCoolerBoost cfg false st.dev
       let st1 := { st with dev := r.2, virt1 := PWM_ENABLE_AUTO }
       if st1.virt1 = PWM_ENABLE_AUTO ∧ st1.virt0 = PWM_ENABLE_AUTO then
         match fanModeIsAvailable cfg.fanModes FM_AUTO with
         | none => none
         | some true => some (setFanMode cfg FM_AUTO st1)
         | some false => some (EINVAL, st1)
       else some (r.1, st1)) := rfl
  rw [hred]
  simp only [setCoolerBoost_clear cfg st.dev hb hra hwa]
  rw [if_pos ⟨by trivial, hv0⟩, hav]

/-- `set_fan_mode` to auto on an all-writable device: success, the
mode register holds the auto value, the `virt` cache is untouched. -/
theorem setFanMode_auto_ok (cfg : Conf) (s : EngineSt) (vu : Nat)
    (hfu : setFanModeFind cfg.fanModes FM_AUTO = some vu)
    (hw : ∀ a, s.dev.writeOk a = true) :
    ∃ st2, setFanMode cfg FM_AUTO s = (0, st2) ∧
      st2.dev.mem cfg.fanModeAddr = vu ∧
      st2.virt0 = s.virt0 ∧ st2.virt1 = s.virt1 := by
  obtain ⟨hc0, hcw, _, hv0, hv1⟩ :=
    curveFanModeChange_noadv_ok cfg s FM_AUTO (by decide) hw
  have hcurve : curveFanModeChange cfg FM_AUTO s
      = (0, (curveFanModeChange cfg FM_AUTO s).2) := by
    rw [← hc0]
  have hwad : (curveFanModeChange cfg FM_AUTO s).2.dev.writeOk cfg.fanModeAddr
      = true := by
    rw [hcw]; exact hw _
  exact ⟨_, setFanMode_eq hfu hcurve hwad, Function.update_same _ _ _, hv0, hv1⟩

/-- A PWM-enable read on a cached channel just reports the cache. -/
theorem hwmonReadCached (cfg : Conf) (s : EngineSt) (ch : Nat)
    (hch : ch = 0 ∨ ch = 1) (hge : 0 ≤ getVirt s ch) :
    hwmonReadPwmEnable cfg s ch = some (0, getVirt s ch, s) := by
  rw [hwmonReadPwmEnable, if_pos hch, if_pos hge]

/-- C2: a PWM-enable write of Auto on one channel while the other
channel's cached state is not Auto returns success without writing the
shared fan-mode register — it only records the request in the cache
and clears the cooler-boost bit; once both channels have requested
Auto, the fan-mode register is written with the auto mode value and
subsequent PWM-enable reads on both channels report Auto (from the
cache, which `msi_ec_hwmon_write` filled before switching). -/
theorem c2_auto_debounce (cfg : Conf) (st : EngineSt) (ch : Nat) (vu : Nat)
    (hch : ch = 0 ∨ ch = 1)
    (hb : ¬(cfg.coolerBoostAddr = ADDR_UNSUPP))
    (hbm : ¬(cfg.coolerBoostAddr = cfg.fanModeAddr))
    (hr : ∀ a, st.dev.readOk a = true)
    (hw : ∀ a, st.dev.writeOk a = true)
    (hav : fanModeIsAvailable cfg.fanModes FM_AUTO = some true)
    (hfu : setFanModeFind cfg.fanModes FM_AUTO = some vu) :
    (¬(getVirt st (1 - ch) = PWM_ENABLE_AUTO) →
      ∃ st', hwmonWritePwmEnable cfg st ch PWM_ENABLE_AUTO = some (0, st') ∧
        st'.dev.mem cfg.fanModeAddr = st.dev.mem cfg.fanModeAddr ∧
        getVirt st' ch = PWM_ENABLE_AUTO ∧
        getVirt st' (1 - ch) = getVirt st (1 - ch) ∧
        ecCheckBit st'.dev cfg.coolerBoostAddr cfg.coolerBoostBit = some false) ∧
    (getVirt st (1 - ch) = PWM_ENABLE_AUTO →
      ∃ st', hwmonWritePwmEnable cfg st ch PWM_ENABLE_AUTO = some (0, st') ∧
        st'.dev.mem cfg.fanModeAddr = vu ∧
        hwmonReadPwmEnable cfg st' 0 = some (0, PWM_ENABLE_AUTO, st') ∧
        hwmonReadPwmEnable cfg st' 1 = some (0, PWM_ENABLE_AUTO, st')) := by
  have hbit : ∀ d : EcDev, d.readOk = st.dev.readOk →
      ecCheckBit (coolerCleared cfg d) cfg.coolerBoostAddr cfg.coolerBoostBit
        = some false := by
    intro d hdr
    unfold ecCheckBit
    have hrd : ecRead (coolerCleared cfg d) cfg.coolerBoostAddr =
        some (Nat.ldiff (d.mem cfg.coolerBoostAddr) (1 <<< cfg.coolerBoostBit)) := by
      show (if (coolerCleared cfg d).readOk cfg.coolerBoostAddr then
        some ((coolerCleared cfg d).mem cfg.coolerBoostAddr) else none) = _
      rw [show (coolerCleared cfg d).readOk = st.dev.readOk from hdr, if_pos (hr _)]
      show some (Function.update d.mem cfg.coolerBoostAddr
        (Nat.ldiff (d.mem cfg.coolerBoostAddr) (1 <<< cfg.coolerBoostBit))
          cfg.coolerBoostAddr) = _
      rw [Function.update_same]
    rw [hrd]
    show some (decide (¬(Nat.ldiff (d.mem cfg.coolerBoostAddr)
      (1 <<< cfg.coolerBoostBit) &&& (1 <<< cfg.coolerBoostBit) = 0))) = some false
    rw [ldiff_land_self]
    rfl
  have hregsame : ∀ d : EcDev,
      (coolerCleared cfg d).mem cfg.fanModeAddr = d.mem cfg.fanModeAddr := by
    intro d
    show Function.update d.mem cfg.coolerBoostAddr
      (Nat.ldiff (d.mem cfg.coolerBoostAddr) (1 <<< cfg.coolerBoostBit))
      cfg.fanModeAddr = d.mem cfg.fanModeAddr
    rw [Function.update_apply, if_neg (fun h => hbm h.symm)]
  rcases hch with rfl | rfl
  · constructor
    · intro hne
      have hne' : ¬(st.virt1 = PWM_ENABLE_AUTO) := hne
      refine ⟨_, hwmonWriteAuto_cached0 cfg st hb (hr _) (hw _) hne', ?_, ?_, ?_, ?_⟩
      · exact hregsame st.dev
      · rfl
      · rfl
      · exact hbit st.dev rfl
    · intro heq
      obtain ⟨st2, hsm, hmem, hv0, hv1⟩ := setFanMode_auto_ok cfg
        { st with
          dev := (coolerCleared cfg st.dev)
          virt0 := PWM_ENABLE_AUTO } vu hfu (fun a => hw a)
      have hg0 : getVirt st2 0 = PWM_ENABLE_AUTO := by
        show (if (0 : Nat) = 0 then st2.virt0 else st2.virt1) = PWM_ENABLE_AUTO
        rw [if_pos rfl, hv0]
      have hg1 : getVirt st2 1 = PWM_ENABLE_AUTO := by
        show (if (1 : Nat) = 0 then st2.virt0 else st2.virt1) = PWM_ENABLE_AUTO
        rw [if_neg (by decide), hv1]
        exact heq
      refine ⟨st2, ?_, hmem, ?_, ?_⟩
      · rw [hwmonWriteAuto_commit0 cfg st hb (hr _) (hw _) heq hav, hsm]
      · rw [hwmonReadCached cfg st2 0 (Or.inl rfl) (by rw [hg0]; decide), hg0]
      · rw [hwmonReadCached cfg st2 1 (Or.inr rfl) (by rw [hg1]; decide), hg1]
  · constructor
    · intro hne
      have hne' : ¬(st.virt0 = PWM_ENABLE_AUTO) := hne
      refine ⟨_, hwmonWriteAuto_cached1 cfg st hb (hr _) (hw _) hne', ?_, ?_, ?_, ?_⟩
      · exact hregsame st.dev
      · rfl
      · rfl
      · exact hbit st.dev rfl
    · intro heq
      obtain ⟨st2, hsm, hmem, hv0, hv1⟩ := setFanMode_auto_ok cfg
        { st with
          dev := (coolerCleared cfg st.dev)
          virt1 := PWM_ENABLE_AUTO } vu hfu (fun a => hw a)
      have hg0 : getVirt st2 0 = PWM_ENABLE_AUTO := by
        show (if (0 : Nat) = 0 then st2.virt0 else st2.virt1) = PWM_ENABLE_AUTO
        rw [if_pos rfl, hv0]
        exact heq
      have hg1 : getVirt st2 1 = PWM_ENABLE_AUTO := by
        show (if (1 : Nat) = 0 then st2.virt0 else st2.virt1) = PWM_ENABLE_AUTO
        rw [if_neg (by decide), hv1]
      refine ⟨st2, ?_, hmem, ?_, ?_⟩
      · rw [hwmonWriteAuto_commit1 cfg st hb (hr _) (hw _) heq hav, hsm]
      · rw [hwmonReadCached cfg st2 0 (Or.inl rfl) (by rw [hg0]; decide), hg0]
      · rw [hwmonReadCached cfg st2 1 (Or.inr rfl) (by rw [hg1]; decide), hg1]

/-- A state in which channel 0 has already requested Auto. -/
def c2St : EngineSt :=
  { dev := { mem := fun _ => 0, readOk := fun _ => true, writeOk := fun _ => true }
    cpu := stW.cpu, gpu := stW.gpu
    virt0 := PWM_ENABLE_AUTO, virt1 := 1 }

/-- C2 witness: on `CONF401`, an Auto request on channel 0 alone is
cached (register untouched, boost bit cleared); the second Auto
request, on channel 1 after channel 0's, writes the auto value `0x00`
and both reads report Auto. -/
theorem c2_auto_debounce_witness :
    (∃ st', hwmonWritePwmEnable conf401 stW 0 PWM_ENABLE_AUTO = some (0, st') ∧
      st'.dev.mem conf401.fanModeAddr = stW.dev.mem conf401.fanModeAddr ∧
      getVirt st' 0 = PWM_ENABLE_AUTO ∧
      getVirt st' (1 - 0) = getVirt stW (1 - 0) ∧
      ecCheckBit st'.dev conf401.coolerBoostAddr conf401.coolerBoostBit
        = some false) ∧
    (∃ st', hwmonWritePwmEnable conf401 c2St 1 PWM_ENABLE_AUTO = some (0, st') ∧
      st'.dev.mem conf401.fanModeAddr = 0x00 ∧
      hwmonReadPwmEnable conf401 st' 0 = some (0, PWM_ENABLE_AUTO, st') ∧
      hwmonReadPwmEnable conf401 st' 1 = some (0, PWM_ENABLE_AUTO, st')) :=
  ⟨(c2_auto_debounce conf401 stW 0 0x00 (Or.inl rfl) (by decide) (by decide)
      (fun _ => rfl) (fun _ => rfl) rfl rfl).1 (by decide),
   (c2_auto_debounce conf401 c2St 1 0x00 (Or.inr rfl) (by decide) (by decide)
      (fun _ => rfl) (fun _ => rfl) rfl rfl).2 (by decide)⟩

end MsiEc
